import Mathlib

/-!
Verification development for the archer-fish refraction simulator
(`src/components/Fish.vue`).  The reactive component is shallowly embedded:
the component's refs become fields of `SimState`, the computed properties and
functions become Lean functions over `SimState`, and every hard-coded numeric
constant is kept as in the source.  JavaScript `Math` trigonometry is modelled
over the reals (`Real.sin`, `Real.arcsin`, ...); the JavaScript `NaN` marker
returned by the refracted-angle computeds under total internal reflection is
modelled as `Option.none`.  JavaScript division of a nonzero number by zero
produces `Infinity`; real division in Lean gives `0` — both disagree with an
absent marker, which is what the degeneracy claims are about.  Watchers are
modelled as firing synchronously at each write of a watched ref, which is the
execution model the specification's concurrency section declares.
-/

open Real

open scoped Classical

set_option maxHeartbeats 1000000

noncomputable section

/-- A 2-D screen-space point (`{ x, y }` object literals in the source). -/
@[ext]
structure Point where
  x : ℝ
  y : ℝ

/-- `const waterLevelY = 450` (Fish.vue line 95). -/
def waterLevelY : ℝ := 450

/-- `const airIndex = 1.0` (Fish.vue line 96). -/
def airIndex : ℝ := 1

/-- The component's reactive refs (Fish.vue lines 94-117).  `angleWatcherRuns`
is ghost instrumentation counting how many times the body of the
`watch([leftAngleDeg, rightAngleDeg])` callback has executed past its
`updatingFromDrag` guard; it lets re-entrancy claims be stated. -/
structure SimState where
  refractiveIndex : ℝ
  leftPoint : Point
  rightPoint : Point
  apparentPosition : Point
  lockRealPosition : Bool
  leftAngleDeg : ℝ
  rightAngleDeg : ℝ
  viewportOffset : Point
  dragStart : Point
  updatingFromDrag : Bool
  angleWatcherRuns : ℕ

/-- The initial reactive state (Fish.vue lines 94-116). -/
def initialState : SimState where
  refractiveIndex := 1.33
  leftPoint := ⟨250, waterLevelY⟩
  rightPoint := ⟨550, waterLevelY⟩
  apparentPosition := ⟨400, 200⟩
  lockRealPosition := true
  leftAngleDeg := 30
  rightAngleDeg := 30
  viewportOffset := ⟨0, 0⟩
  dragStart := ⟨0, 0⟩
  updatingFromDrag := false
  angleWatcherRuns := 0

/-- The initial state with the index set to 1.5 and both angle fields typed
in as 30.04 degrees — a value the input field accepts but that is not an
exact multiple of the 0.1-degree resolution of `toFixed(1)`. -/
def offTenthState : SimState :=
  { initialState with refractiveIndex := 1.5, leftAngleDeg := 30.04, rightAngleDeg := 30.04 }

/-- `criticalAngle` computed (Fish.vue lines 120-122):
`asin(airIndex / refractiveIndex) * 180 / PI`. -/
def criticalAngle (n : ℝ) : ℝ := Real.arcsin (airIndex / n) * 180 / π

/-- `distanceBetweenPoints` computed (Fish.vue lines 125-127). -/
def distanceBetweenPoints (s : SimState) : ℝ := |s.rightPoint.x - s.leftPoint.x|

/-- `leftExceedsCritical` computed (Fish.vue lines 130-132). -/
def leftExceedsCritical (s : SimState) : Prop :=
  s.leftAngleDeg ≥ criticalAngle s.refractiveIndex

/-- `rightExceedsCritical` computed (Fish.vue lines 134-136). -/
def rightExceedsCritical (s : SimState) : Prop :=
  s.rightAngleDeg ≥ criticalAngle s.refractiveIndex

/-- The arithmetic performed by the `leftRefractedAngle` / `rightRefractedAngle`
computeds on their non-`NaN` path (Fish.vue lines 142-147):
`asin((refractiveIndex / airIndex) * sin(incidentRad)) * 180 / PI`. -/
def refractedDeg (n incidentDeg : ℝ) : ℝ :=
  Real.arcsin (n / airIndex * Real.sin (incidentDeg * π / 180)) * 180 / π

/-- `leftRefractedAngle` computed (Fish.vue lines 139-148); the `NaN` returned
under total internal reflection is modelled as `none`. -/
def leftRefractedAngle (s : SimState) : Option ℝ :=
  if leftExceedsCritical s then none
  else some (refractedDeg s.refractiveIndex s.leftAngleDeg)

/-- `rightRefractedAngle` computed (Fish.vue lines 150-159). -/
def rightRefractedAngle (s : SimState) : Option ℝ :=
  if rightExceedsCritical s then none
  else some (refractedDeg s.refractiveIndex s.rightAngleDeg)

/-- The inverse (air-to-water) Snell computation used by
`updateApparentFromReal` and `updateAnglesFromRealPosition`
(Fish.vue lines 251-256 and 437-442), expressed in degrees:
`asin((airIndex / refractiveIndex) * sin(incidentRad)) * 180 / PI`. -/
def inverseRefractedDeg (n incidentDeg : ℝ) : ℝ :=
  Real.arcsin (airIndex / n * Real.sin (incidentDeg * π / 180)) * 180 / π

/-- `calculateRayPoint` (Fish.vue lines 162-175). -/
def calculateRayPoint (startPoint : Point) (angleDeg length : ℝ) (isLeft : Prop) : Point :=
  let angleRad := angleDeg * π / 180
  let xDirection : ℝ := if isLeft then -1 else 1
  ⟨startPoint.x + length * Real.sin angleRad * xDirection,
   startPoint.y - length * Real.cos angleRad⟩

/-- The slope of a ray built by `calculateRayPoint` with nominal length 1000,
`(rayPoint.y - start.y) / (rayPoint.x - start.x)` (Fish.vue lines 188-207,
276-282). -/
def raySlope (startPoint : Point) (angleDeg : ℝ) (isLeft : Prop) : ℝ :=
  let rayPt := calculateRayPoint startPoint angleDeg 1000 isLeft
  (rayPt.y - startPoint.y) / (rayPt.x - startPoint.x)

/-- The 2-ray line-intersection solve shared by `realPosition` and
`updateApparentFromReal` (Fish.vue lines 209-222 and 284-290):
`x = ((m1*x1 - y1) - (m2*x2 - y2)) / (m1 - m2)`, `y = m1*(x - x1) + y1`.
The source has no `m1 == m2` degeneracy check; with `m1 = m2` JavaScript
divides by zero (yielding `Infinity`/`NaN` coordinates) and real division
yields `0` — in neither semantics is an absent marker produced. -/
def intersectRays (p1 : Point) (m1 : ℝ) (p2 : Point) (m2 : ℝ) : Point :=
  let x := (m1 * p1.x - p1.y - (m2 * p2.x - p2.y)) / (m1 - m2)
  ⟨x, m1 * (x - p1.x) + p1.y⟩

/-- `realPosition` computed (Fish.vue lines 178-223).  Returns `none` exactly
when one of the angles is at or beyond the critical angle; otherwise it always
returns the intersection point, parallel rays included. -/
def realPosition (s : SimState) : Option Point :=
  if leftExceedsCritical s ∨ rightExceedsCritical s then none
  else
    let leftIsLeft := s.apparentPosition.x < s.leftPoint.x
    let rightIsLeft := s.apparentPosition.x < s.rightPoint.x
    let leftSlope :=
      raySlope s.leftPoint (refractedDeg s.refractiveIndex s.leftAngleDeg) leftIsLeft
    let rightSlope :=
      raySlope s.rightPoint (refractedDeg s.refractiveIndex s.rightAngleDeg) rightIsLeft
    some (intersectRays s.leftPoint leftSlope s.rightPoint rightSlope)

/-- JavaScript `Math.atan2(y, x)` over the reals (zero-sign distinctions of
IEEE `-0` aside). -/
def jsAtan2 (y x : ℝ) : ℝ :=
  if 0 < x then Real.arctan (y / x)
  else if x < 0 then
    (if 0 ≤ y then Real.arctan (y / x) + π else Real.arctan (y / x) - π)
  else if 0 < y then π / 2
  else if y < 0 then -(π / 2)
  else 0

/-- JavaScript `parseFloat(v.toFixed(1))`: rounding to one decimal place
(Fish.vue lines 419-420, 445-450). -/
def jsToFixed1 (v : ℝ) : ℝ := (round (10 * v) : ℤ) / 10

/-- The point computed by the body of `updateApparentFromReal` once its guards
have passed (Fish.vue lines 239-290). -/
def apparentFromRealPoint (s : SimState) (realPos : Point) : Point :=
  let leftDx := realPos.x - s.leftPoint.x
  let leftDy := realPos.y - s.leftPoint.y
  let rightDx := realPos.x - s.rightPoint.x
  let rightDy := realPos.y - s.rightPoint.y
  let leftIncidentRad := jsAtan2 |leftDx| |leftDy|
  let rightIncidentRad := jsAtan2 |rightDx| |rightDy|
  let leftWaterRad := Real.arcsin (airIndex / s.refractiveIndex * Real.sin leftIncidentRad)
  let rightWaterRad := Real.arcsin (airIndex / s.refractiveIndex * Real.sin rightIncidentRad)
  let leftIsLeft := leftDx < 0
  let rightIsLeft := rightDx < 0
  let leftSlope := raySlope s.leftPoint (leftWaterRad * 180 / π) leftIsLeft
  let rightSlope := raySlope s.rightPoint (rightWaterRad * 180 / π) rightIsLeft
  intersectRays s.leftPoint leftSlope s.rightPoint rightSlope

/-- `updateApparentFromReal` (Fish.vue lines 226-294). -/
def updateApparentFromReal (s : SimState) : SimState :=
  if s.lockRealPosition = true then
    match realPosition s with
    | none => s
    | some realPos =>
      if realPos.y ≥ waterLevelY ∨ leftExceedsCritical s ∨ rightExceedsCritical s then s
      else { s with apparentPosition := apparentFromRealPoint s realPos }
  else s

/-- `Math.max(0, Math.min(89.9, v))`, the clamp applied by the angle watcher
(Fish.vue lines 720-721). -/
def clampAngle (v : ℝ) : ℝ := max 0 (min 89.9 v)

/-- The callback of `watch([leftAngleDeg, rightAngleDeg], ...)`
(Fish.vue lines 716-727): guarded by `updatingFromDrag`, clamps both angles,
then recomputes the apparent position.  The ghost counter records an
execution that passed the guard. -/
def angleWatcherBody (s : SimState) : SimState :=
  if s.updatingFromDrag = true then s
  else
    updateApparentFromReal
      { s with
        leftAngleDeg := clampAngle s.leftAngleDeg
        rightAngleDeg := clampAngle s.rightAngleDeg
        angleWatcherRuns := s.angleWatcherRuns + 1 }

/-- An assignment to the `leftAngleDeg` ref; the watcher on the angles fires
(synchronously, in this model) at the write. -/
def writeLeftAngleDeg (s : SimState) (v : ℝ) : SimState :=
  angleWatcherBody { s with leftAngleDeg := v }

/-- An assignment to the `rightAngleDeg` ref. -/
def writeRightAngleDeg (s : SimState) (v : ℝ) : SimState :=
  angleWatcherBody { s with rightAngleDeg := v }

/-- `updateAnglesFromPositions` (Fish.vue lines 406-421): recompute both
angles from the apparent position with `Math.abs(Math.atan2(dx, -dy))`,
rounded through `toFixed(1)`. -/
def updateAnglesFromPositions (s : SimState) : SimState :=
  let leftDx := s.apparentPosition.x - s.leftPoint.x
  let leftDy := s.apparentPosition.y - s.leftPoint.y
  let rightDx := s.apparentPosition.x - s.rightPoint.x
  let rightDy := s.apparentPosition.y - s.rightPoint.y
  let leftAngle := |jsAtan2 leftDx (-leftDy)|
  let rightAngle := |jsAtan2 rightDx (-rightDy)|
  writeRightAngleDeg (writeLeftAngleDeg s (jsToFixed1 (leftAngle * 180 / π)))
    (jsToFixed1 (rightAngle * 180 / π))

/-- `updateAnglesFromRealPosition` (Fish.vue lines 424-451): recompute both
angles from a dragged real position through inverse Snell's law. -/
def updateAnglesFromRealPosition (s : SimState) (realPos : Point) : SimState :=
  let leftDx := realPos.x - s.leftPoint.x
  let leftDy := realPos.y - s.leftPoint.y
  let rightDx := realPos.x - s.rightPoint.x
  let rightDy := realPos.y - s.rightPoint.y
  let leftIncidentAngle := |jsAtan2 leftDx (-leftDy)|
  let rightIncidentAngle := |jsAtan2 rightDx (-rightDy)|
  let leftWaterAngle := Real.arcsin (airIndex / s.refractiveIndex * Real.sin leftIncidentAngle)
  let rightWaterAngle := Real.arcsin (airIndex / s.refractiveIndex * Real.sin rightIncidentAngle)
  writeRightAngleDeg (writeLeftAngleDeg s (jsToFixed1 (leftWaterAngle * 180 / π)))
    (jsToFixed1 (rightWaterAngle * 180 / π))

/-- Which draggable element `handleMouseDown` selected (Fish.vue lines 334-345). -/
inductive DragTarget
  | leftPoint
  | rightPoint
  | apparentPosition
  | realPosition
  | viewport

/-- `handleMouseMove` (Fish.vue lines 348-399), with the active drag target and
the screen coordinates as inputs; `screenToWorld` subtracts the viewport
offset (lines 297-302). -/
def handleMouseMove (s : SimState) (target : DragTarget) (screenX screenY : ℝ) : SimState :=
  match target with
  | .viewport =>
    { s with
      viewportOffset := ⟨s.viewportOffset.x + (screenX - s.dragStart.x),
                         s.viewportOffset.y + (screenY - s.dragStart.y)⟩
      dragStart := ⟨screenX, screenY⟩ }
  | .leftPoint =>
    let x := screenX - s.viewportOffset.x
    let s1 := { s with leftPoint := (⟨x, waterLevelY⟩ : Point) }
    let s2 := updateAnglesFromPositions { s1 with updatingFromDrag := true }
    { s2 with updatingFromDrag := false }
  | .rightPoint =>
    let x := screenX - s.viewportOffset.x
    let s1 := { s with rightPoint := (⟨x, waterLevelY⟩ : Point) }
    let s2 := updateAnglesFromPositions { s1 with updatingFromDrag := true }
    { s2 with updatingFromDrag := false }
  | .apparentPosition =>
    let x := screenX - s.viewportOffset.x
    let y := screenY - s.viewportOffset.y
    if y < waterLevelY then
      let s1 := { s with apparentPosition := (⟨x, y⟩ : Point) }
      let s2 := updateAnglesFromPositions { s1 with updatingFromDrag := true }
      { s2 with updatingFromDrag := false }
    else s
  | .realPosition =>
    let x := screenX - s.viewportOffset.x
    let y := screenY - s.viewportOffset.y
    if y < waterLevelY ∧ s.lockRealPosition = true then
      let realPos : Point := ⟨x, y⟩
      let s1 := updateAnglesFromRealPosition { s with updatingFromDrag := true } realPos
      let s2 := updateApparentFromReal s1
      { s2 with updatingFromDrag := false }
    else s

/-- The callback of `watch(refractiveIndex, ...)` (Fish.vue lines 730-736). -/
def refractiveIndexWatcherBody (s : SimState) : SimState :=
  if s.lockRealPosition = true then updateApparentFromReal s else s

/-- The callback of `watch(lockRealPosition, ...)` (Fish.vue lines 739-743). -/
def lockWatcherBody (s : SimState) : SimState :=
  updateApparentFromReal s

/-- The discrete edit events reaching the reactive state: mouse drags and the
three input bindings. -/
inductive Event
  | mouseMove (target : DragTarget) (screenX screenY : ℝ)
  | editLeftAngle (v : ℝ)
  | editRightAngle (v : ℝ)
  | editRefractiveIndex (v : ℝ)
  | toggleLock (b : Bool)

/-- One reconciliation step: the handler (plus the watcher it triggers) run for
a single edit event. -/
def step (s : SimState) (e : Event) : SimState :=
  match e with
  | .mouseMove t sx sy => handleMouseMove s t sx sy
  | .editLeftAngle v => writeLeftAngleDeg s v
  | .editRightAngle v => writeRightAngleDeg s v
  | .editRefractiveIndex v => refractiveIndexWatcherBody { s with refractiveIndex := v }
  | .toggleLock b => lockWatcherBody { s with lockRealPosition := b }

/-- Both refraction points lie on the interface line. -/
def pointsOnInterface (s : SimState) : Prop :=
  s.leftPoint.y = waterLevelY ∧ s.rightPoint.y = waterLevelY

end

/-! ### Plumbing lemmas: which fields each mutator can touch -/

theorem updateApparentFromReal_shape (s : SimState) :
    ∃ p, updateApparentFromReal s = { s with apparentPosition := p } := by
  unfold updateApparentFromReal
  by_cases hl : s.lockRealPosition = true
  · rw [if_pos hl]
    cases hr : realPosition s with
    | none => exact ⟨s.apparentPosition, rfl⟩
    | some r =>
      by_cases hc : r.y ≥ waterLevelY ∨ leftExceedsCritical s ∨ rightExceedsCritical s
      · exact ⟨s.apparentPosition, if_pos hc⟩
      · exact ⟨apparentFromRealPoint s r, if_neg hc⟩
  · rw [if_neg hl]
    exact ⟨s.apparentPosition, rfl⟩

theorem angleWatcherBody_of_flag {s : SimState} (h : s.updatingFromDrag = true) :
    angleWatcherBody s = s := by
  unfold angleWatcherBody
  rw [if_pos h]

theorem angleWatcherBody_shape (s : SimState) :
    ∃ l r p k,
      angleWatcherBody s =
        { s with leftAngleDeg := l, rightAngleDeg := r, apparentPosition := p,
                 angleWatcherRuns := k } := by
  unfold angleWatcherBody
  by_cases h : s.updatingFromDrag = true
  · rw [if_pos h]
    exact ⟨s.leftAngleDeg, s.rightAngleDeg, s.apparentPosition, s.angleWatcherRuns, rfl⟩
  · rw [if_neg h]
    obtain ⟨p, hp⟩ := updateApparentFromReal_shape
      { s with leftAngleDeg := clampAngle s.leftAngleDeg,
               rightAngleDeg := clampAngle s.rightAngleDeg,
               angleWatcherRuns := s.angleWatcherRuns + 1 }
    rw [hp]
    exact ⟨clampAngle s.leftAngleDeg, clampAngle s.rightAngleDeg, p,
      s.angleWatcherRuns + 1, rfl⟩

theorem writeBoth_shape (s : SimState) (a b : ℝ) :
    ∃ l r p k,
      writeRightAngleDeg (writeLeftAngleDeg s a) b =
        { s with leftAngleDeg := l, rightAngleDeg := r, apparentPosition := p,
                 angleWatcherRuns := k } := by
  unfold writeLeftAngleDeg writeRightAngleDeg
  obtain ⟨l1, r1, p1, k1, h1⟩ := angleWatcherBody_shape { s with leftAngleDeg := a }
  rw [h1]
  obtain ⟨l2, r2, p2, k2, h2⟩ := angleWatcherBody_shape
    { s with leftAngleDeg := l1, rightAngleDeg := b, apparentPosition := p1,
             angleWatcherRuns := k1 }
  exact ⟨l2, r2, p2, k2, h2⟩

theorem updateAnglesFromPositions_shape (s : SimState) :
    ∃ l r p k,
      updateAnglesFromPositions s =
        { s with leftAngleDeg := l, rightAngleDeg := r, apparentPosition := p,
                 angleWatcherRuns := k } := by
  unfold updateAnglesFromPositions
  exact writeBoth_shape s _ _

theorem updateAnglesFromRealPosition_shape (s : SimState) (realPos : Point) :
    ∃ l r p k,
      updateAnglesFromRealPosition s realPos =
        { s with leftAngleDeg := l, rightAngleDeg := r, apparentPosition := p,
                 angleWatcherRuns := k } := by
  unfold updateAnglesFromRealPosition
  exact writeBoth_shape s _ _

theorem writeLeftAngleDeg_of_flag (s : SimState) (a : ℝ) (h : s.updatingFromDrag = true) :
    writeLeftAngleDeg s a = { s with leftAngleDeg := a } :=
  angleWatcherBody_of_flag h

theorem writeRightAngleDeg_of_flag (s : SimState) (b : ℝ) (h : s.updatingFromDrag = true) :
    writeRightAngleDeg s b = { s with rightAngleDeg := b } :=
  angleWatcherBody_of_flag h

theorem writeBoth_of_flag (s : SimState) (a b : ℝ) (h : s.updatingFromDrag = true) :
    writeRightAngleDeg (writeLeftAngleDeg s a) b =
      { s with leftAngleDeg := a, rightAngleDeg := b } := by
  rw [writeLeftAngleDeg_of_flag s a h]
  exact writeRightAngleDeg_of_flag { s with leftAngleDeg := a } b h

theorem updateApparentFromReal_leftPoint (s : SimState) :
    (updateApparentFromReal s).leftPoint = s.leftPoint := by
  obtain ⟨p, hp⟩ := updateApparentFromReal_shape s
  rw [hp]

theorem updateApparentFromReal_rightPoint (s : SimState) :
    (updateApparentFromReal s).rightPoint = s.rightPoint := by
  obtain ⟨p, hp⟩ := updateApparentFromReal_shape s
  rw [hp]

theorem updateApparentFromReal_runs (s : SimState) :
    (updateApparentFromReal s).angleWatcherRuns = s.angleWatcherRuns := by
  obtain ⟨p, hp⟩ := updateApparentFromReal_shape s
  rw [hp]

/-- Claim C6: while a drag handler is executing, its writes to the angle refs
never make the angle watcher's body run past its `updatingFromDrag` guard:
the ghost execution counter is unchanged by every `handleMouseMove` branch. -/
theorem claim_C6_drag_writes_never_retrigger_watcher :
    ∀ (s : SimState) (t : DragTarget) (sx sy : ℝ),
      (handleMouseMove s t sx sy).angleWatcherRuns = s.angleWatcherRuns := by
  intro s t sx sy
  cases t with
  | viewport => rfl
  | leftPoint =>
    simp only [handleMouseMove, updateAnglesFromPositions]
    rw [writeBoth_of_flag _ _ _ rfl]
  | rightPoint =>
    simp only [handleMouseMove, updateAnglesFromPositions]
    rw [writeBoth_of_flag _ _ _ rfl]
  | apparentPosition =>
    simp only [handleMouseMove, updateAnglesFromPositions]
    split
    · rw [writeBoth_of_flag _ _ _ rfl]
    · rfl
  | realPosition =>
    simp only [handleMouseMove, updateAnglesFromRealPosition]
    split
    · rw [writeBoth_of_flag _ _ _ rfl, updateApparentFromReal_runs]
    · rfl

/-- Claim C8: whenever the real position is absent, at or below the interface,
or a side is in total internal reflection, `updateApparentFromReal` is a
no-op: the whole state is returned unchanged. -/
theorem claim_C8_updateApparentFromReal_noop (s : SimState)
    (h : realPosition s = none ∨
      (∃ r, realPosition s = some r ∧ r.y ≥ waterLevelY) ∨
      leftExceedsCritical s ∨ rightExceedsCritical s) :
    updateApparentFromReal s = s := by
  unfold updateApparentFromReal
  by_cases hl : s.lockRealPosition = true
  · rw [if_pos hl]
    cases hr : realPosition s with
    | none => rfl
    | some r =>
      have hcond : r.y ≥ waterLevelY ∨ leftExceedsCritical s ∨ rightExceedsCritical s := by
        rcases h with h | ⟨r', hr', hy⟩ | h | h
        · rw [h] at hr; cases hr
        · rw [hr'] at hr
          cases hr
          exact Or.inl hy
        · exact Or.inr (Or.inl h)
        · exact Or.inr (Or.inr h)
      exact if_pos hcond
  · rw [if_neg hl]

theorem angleWatcherBody_leftPoint (s : SimState) :
    (angleWatcherBody s).leftPoint = s.leftPoint := by
  obtain ⟨l, r, p, k, h⟩ := angleWatcherBody_shape s
  rw [h]

theorem angleWatcherBody_rightPoint (s : SimState) :
    (angleWatcherBody s).rightPoint = s.rightPoint := by
  obtain ⟨l, r, p, k, h⟩ := angleWatcherBody_shape s
  rw [h]

theorem updateAnglesFromPositions_leftPoint (s : SimState) :
    (updateAnglesFromPositions s).leftPoint = s.leftPoint := by
  obtain ⟨l, r, p, k, h⟩ := updateAnglesFromPositions_shape s
  rw [h]

theorem updateAnglesFromPositions_rightPoint (s : SimState) :
    (updateAnglesFromPositions s).rightPoint = s.rightPoint := by
  obtain ⟨l, r, p, k, h⟩ := updateAnglesFromPositions_shape s
  rw [h]

theorem updateAnglesFromRealPosition_leftPoint (s : SimState) (realPos : Point) :
    (updateAnglesFromRealPosition s realPos).leftPoint = s.leftPoint := by
  obtain ⟨l, r, p, k, h⟩ := updateAnglesFromRealPosition_shape s realPos
  rw [h]

theorem updateAnglesFromRealPosition_rightPoint (s : SimState) (realPos : Point) :
    (updateAnglesFromRealPosition s realPos).rightPoint = s.rightPoint := by
  obtain ⟨l, r, p, k, h⟩ := updateAnglesFromRealPosition_shape s realPos
  rw [h]

theorem updateAnglesFromPositions_of_flag (s : SimState) (h : s.updatingFromDrag = true) :
    ∃ l r, updateAnglesFromPositions s = { s with leftAngleDeg := l, rightAngleDeg := r } := by
  unfold updateAnglesFromPositions
  exact ⟨_, _, writeBoth_of_flag s _ _ h⟩

/-- Claim C9: both refraction points sit exactly on the interface line in the
initial state, and every edit event preserves this invariant (a refraction
point drag can change only the `x` coordinate — the handler pins `y` to
`waterLevelY`). -/
theorem claim_C9_refraction_points_on_interface :
    pointsOnInterface initialState ∧
      ∀ (s : SimState) (e : Event), pointsOnInterface s → pointsOnInterface (step s e) := by
  constructor
  · exact ⟨rfl, rfl⟩
  · intro s e h
    cases e with
    | mouseMove t sx sy =>
      cases t with
      | viewport => exact h
      | leftPoint =>
        constructor
        · show (updateAnglesFromPositions _).leftPoint.y = waterLevelY
          rw [updateAnglesFromPositions_leftPoint]
        · show (updateAnglesFromPositions _).rightPoint.y = waterLevelY
          rw [updateAnglesFromPositions_rightPoint]
          exact h.2
      | rightPoint =>
        constructor
        · show (updateAnglesFromPositions _).leftPoint.y = waterLevelY
          rw [updateAnglesFromPositions_leftPoint]
          exact h.1
        · show (updateAnglesFromPositions _).rightPoint.y = waterLevelY
          rw [updateAnglesFromPositions_rightPoint]
      | apparentPosition =>
        simp only [step, handleMouseMove]
        split
        · constructor
          · show (updateAnglesFromPositions _).leftPoint.y = waterLevelY
            rw [updateAnglesFromPositions_leftPoint]
            exact h.1
          · show (updateAnglesFromPositions _).rightPoint.y = waterLevelY
            rw [updateAnglesFromPositions_rightPoint]
            exact h.2
        · exact h
      | realPosition =>
        simp only [step, handleMouseMove]
        split
        · constructor
          · show (updateApparentFromReal _).leftPoint.y = waterLevelY
            rw [updateApparentFromReal_leftPoint, updateAnglesFromRealPosition_leftPoint]
            exact h.1
          · show (updateApparentFromReal _).rightPoint.y = waterLevelY
            rw [updateApparentFromReal_rightPoint, updateAnglesFromRealPosition_rightPoint]
            exact h.2
        · exact h
    | editLeftAngle v =>
      constructor
      · show (angleWatcherBody _).leftPoint.y = waterLevelY
        rw [angleWatcherBody_leftPoint]
        exact h.1
      · show (angleWatcherBody _).rightPoint.y = waterLevelY
        rw [angleWatcherBody_rightPoint]
        exact h.2
    | editRightAngle v =>
      constructor
      · show (angleWatcherBody _).leftPoint.y = waterLevelY
        rw [angleWatcherBody_leftPoint]
        exact h.1
      · show (angleWatcherBody _).rightPoint.y = waterLevelY
        rw [angleWatcherBody_rightPoint]
        exact h.2
    | editRefractiveIndex v =>
      simp only [step, refractiveIndexWatcherBody]
      split
      · constructor
        · show (updateApparentFromReal _).leftPoint.y = waterLevelY
          rw [updateApparentFromReal_leftPoint]
          exact h.1
        · show (updateApparentFromReal _).rightPoint.y = waterLevelY
          rw [updateApparentFromReal_rightPoint]
          exact h.2
      · exact h
    | toggleLock b =>
      constructor
      · show (updateApparentFromReal _).leftPoint.y = waterLevelY
        rw [updateApparentFromReal_leftPoint]
        exact h.1
      · show (updateApparentFromReal _).rightPoint.y = waterLevelY
        rw [updateApparentFromReal_rightPoint]
        exact h.2

/-- Closed witness for claim C9 at the initial state and a concrete
refraction-point drag. -/
theorem claim_C9_witness :
    pointsOnInterface initialState ∧
      pointsOnInterface
        (step initialState (Event.mouseMove DragTarget.leftPoint 100 300)) :=
  ⟨claim_C9_refraction_points_on_interface.1,
    claim_C9_refraction_points_on_interface.2 initialState
      (Event.mouseMove DragTarget.leftPoint 100 300)
      claim_C9_refraction_points_on_interface.1⟩

/-- Claim C10: the apparent-position drag branch accepts the dragged point
exactly when its world y-coordinate is strictly above the interface; at or
below the interface it leaves the whole state (apparent position and both
angles included) unchanged. -/
theorem claim_C10_apparent_drag_gated_by_interface :
    ∀ (s : SimState) (sx sy : ℝ),
      (waterLevelY ≤ sy - s.viewportOffset.y →
        handleMouseMove s DragTarget.apparentPosition sx sy = s) ∧
      (sy - s.viewportOffset.y < waterLevelY →
        (handleMouseMove s DragTarget.apparentPosition sx sy).apparentPosition =
          ⟨sx - s.viewportOffset.x, sy - s.viewportOffset.y⟩) := by
  intro s sx sy
  constructor
  · intro hy
    simp only [handleMouseMove]
    rw [if_neg (not_lt.mpr hy)]
  · intro hy
    simp only [handleMouseMove]
    rw [if_pos hy]
    obtain ⟨l, r, hu⟩ := updateAnglesFromPositions_of_flag
      { s with apparentPosition := (⟨sx - s.viewportOffset.x, sy - s.viewportOffset.y⟩ : Point),
               updatingFromDrag := true } rfl
    rw [hu]

/-- Closed witness for claim C10: dragging the apparent point to screen
y = 500 (world y = 500, below the interface) from the initial state is a
no-op, and dragging it to world y = 100 moves it there. -/
theorem claim_C10_witness :
    handleMouseMove initialState DragTarget.apparentPosition 380 500 = initialState ∧
      (handleMouseMove initialState DragTarget.apparentPosition 380 100).apparentPosition =
        ⟨380 - initialState.viewportOffset.x, 100 - initialState.viewportOffset.y⟩ :=
  ⟨(claim_C10_apparent_drag_gated_by_interface initialState 380 500).1 (by norm_num [initialState, waterLevelY]),
   (claim_C10_apparent_drag_gated_by_interface initialState 380 100).2 (by norm_num [initialState, waterLevelY])⟩

/-! ### Basic trigonometric helper lemmas -/

theorem degRadRoundtrip (x : ℝ) : x * 180 / π * π / 180 = x := by
  field_simp

theorem radDegRoundtrip (x : ℝ) : x * π / 180 * 180 / π = x := by
  field_simp

theorem deg_pos {a : ℝ} (h : 0 < a) : 0 < a * π / 180 := by
  have := Real.pi_pos
  positivity

theorem deg_nonneg {a : ℝ} (h : 0 ≤ a) : 0 ≤ a * π / 180 := by
  have := Real.pi_pos
  positivity

theorem deg_lt_pi_div_two {a : ℝ} (h : a < 90) : a * π / 180 < π / 2 := by
  nlinarith [Real.pi_pos]

theorem deg_le_pi_div_two {a : ℝ} (h : a ≤ 90) : a * π / 180 ≤ π / 2 := by
  nlinarith [Real.pi_pos]

theorem arcsin_gt_of_sin_lt {a x : ℝ} (h0 : 0 ≤ a) (h2 : a ≤ π / 2)
    (hs : Real.sin a < x) (hx : x ≤ 1) : a < Real.arcsin x := by
  by_contra hcon
  push_neg at hcon
  have hsa : Real.sin (Real.arcsin x) ≤ Real.sin a := by
    apply Real.strictMonoOn_sin.monotoneOn
    · exact ⟨Real.neg_pi_div_two_le_arcsin x, Real.arcsin_le_pi_div_two x⟩
    · constructor
      · linarith [Real.pi_pos]
      · exact h2
    · exact hcon
  have hsnn : 0 ≤ Real.sin a :=
    Real.sin_nonneg_of_nonneg_of_le_pi h0 (by linarith [Real.pi_pos])
  rw [Real.sin_arcsin (by linarith) hx] at hsa
  linarith

theorem arcsin_lt_of_lt_sin {a x : ℝ} (h0 : 0 ≤ a) (h2 : a ≤ π / 2)
    (hx : -1 ≤ x) (hs : x < Real.sin a) : Real.arcsin x < a := by
  by_contra hcon
  push_neg at hcon
  have hsa : Real.sin a ≤ Real.sin (Real.arcsin x) := by
    apply Real.strictMonoOn_sin.monotoneOn
    · constructor
      · linarith [Real.pi_pos]
      · exact h2
    · exact ⟨Real.neg_pi_div_two_le_arcsin x, Real.arcsin_le_pi_div_two x⟩
    · exact hcon
  rw [Real.sin_arcsin hx (le_trans (le_of_lt hs) (Real.sin_le_one a))] at hsa
  linarith

/-- Whenever the incident angle is in `[0, 90)` and `n * sin(angleRad) < 1`,
the angle is strictly below the critical angle. -/
theorem lt_criticalAngle_of_snell {n a : ℝ} (hn : 1 ≤ n) (h0 : 0 ≤ a) (h90 : a < 90)
    (hs : n * Real.sin (a * π / 180) < 1) : a < criticalAngle n := by
  have hn0 : (0 : ℝ) < n := by linarith
  have ht0 : 0 ≤ a * π / 180 := deg_nonneg h0
  have ht2 : a * π / 180 < π / 2 := deg_lt_pi_div_two h90
  have hsin : Real.sin (a * π / 180) < 1 / n := by
    rw [lt_div_iff hn0]
    linarith [hs]
  have harc : a * π / 180 < Real.arcsin (1 / n) :=
    arcsin_gt_of_sin_lt ht0 (le_of_lt ht2) hsin (by
      rw [div_le_one hn0]; exact hn)
  have : a * π / 180 * 180 / π < Real.arcsin (1 / n) * 180 / π := by
    have hpi : (0 : ℝ) < 180 / π := by positivity
    calc a * π / 180 * 180 / π = a * π / 180 * (180 / π) := by ring
    _ < Real.arcsin (1 / n) * (180 / π) := by
        exact mul_lt_mul_of_pos_right harc hpi
    _ = Real.arcsin (1 / n) * 180 / π := by ring
  have ha : a * π / 180 * 180 / π = a := by field_simp
  rw [ha] at this
  unfold criticalAngle airIndex
  exact this

theorem clampAngle_eq_self {v : ℝ} (h0 : 0 ≤ v) (h89 : v ≤ 89.9) :
    clampAngle v = v := by
  unfold clampAngle
  rw [min_eq_right h89, max_eq_right h0]

theorem jsToFixed1_tenths (k : ℤ) : jsToFixed1 ((k : ℝ) / 10) = (k : ℝ) / 10 := by
  unfold jsToFixed1
  rw [(show (10 : ℝ) * ((k : ℝ) / 10) = (k : ℝ) by ring), round_intCast]

theorem jsAtan2_pos_x (y x : ℝ) (hx : 0 < x) : jsAtan2 y x = Real.arctan (y / x) := by
  unfold jsAtan2
  rw [if_pos hx]

/-! ### Claims about the refraction solver -/

/-- Claim C2: the water-to-air refraction computed properties signal TIR
(`NaN`, modelled `none`) exactly when the incident angle reaches the critical
angle, and below the critical angle (within the supported range of indices)
they return a genuine refracted angle in `[0, 90)` satisfying Snell's law
`sin(r) = n * sin(incident)`. -/
theorem claim_C2_refraction_valid_or_TIR (s : SimState) :
    (leftRefractedAngle s = none ↔ s.leftAngleDeg ≥ criticalAngle s.refractiveIndex) ∧
    (rightRefractedAngle s = none ↔ s.rightAngleDeg ≥ criticalAngle s.refractiveIndex) ∧
    (1 ≤ s.refractiveIndex → s.refractiveIndex ≤ 2 → 0 ≤ s.leftAngleDeg →
      s.leftAngleDeg < criticalAngle s.refractiveIndex →
      ∃ r, leftRefractedAngle s = some r ∧ 0 ≤ r ∧ r < 90 ∧
        Real.sin (r * π / 180) =
          s.refractiveIndex * Real.sin (s.leftAngleDeg * π / 180)) := by
  refine ⟨?_, ?_, ?_⟩
  · constructor
    · intro h
      by_contra hc
      have : leftRefractedAngle s = some (refractedDeg s.refractiveIndex s.leftAngleDeg) :=
        if_neg hc
      rw [h] at this
      cases this
    · intro h
      exact if_pos h
  · constructor
    · intro h
      by_contra hc
      have : rightRefractedAngle s = some (refractedDeg s.refractiveIndex s.rightAngleDeg) :=
        if_neg hc
      rw [h] at this
      cases this
    · intro h
      exact if_pos h
  · intro hn _ h0 hlt
    have hn0 : (0 : ℝ) < s.refractiveIndex := by linarith
    set a := s.leftAngleDeg with ha
    set n := s.refractiveIndex with hnn
    have hpi : (0 : ℝ) < 180 / π := by positivity
    have hcA90 : criticalAngle n ≤ 90 := by
      unfold criticalAngle
      have h1 : Real.arcsin (airIndex / n) ≤ π / 2 := Real.arcsin_le_pi_div_two _
      calc Real.arcsin (airIndex / n) * 180 / π
          = Real.arcsin (airIndex / n) * (180 / π) := by ring
      _ ≤ π / 2 * (180 / π) := mul_le_mul_of_nonneg_right h1 (le_of_lt hpi)
      _ = 90 := by
          field_simp
          ring
    have h90 : a < 90 := lt_of_lt_of_le hlt hcA90
    have ht0 : 0 ≤ a * π / 180 := deg_nonneg h0
    have ht2 : a * π / 180 < π / 2 := deg_lt_pi_div_two h90
    have hsint0 : 0 ≤ Real.sin (a * π / 180) :=
      Real.sin_nonneg_of_nonneg_of_le_pi ht0 (by linarith [Real.pi_pos])
    -- below the critical angle the arcsine argument stays below 1
    have hsnell : n * Real.sin (a * π / 180) < 1 := by
      have harc : a * π / 180 < Real.arcsin (airIndex / n) := by
        have hX := hlt
        unfold criticalAngle at hX
        have hpi2 : (0 : ℝ) < π / 180 := by positivity
        have hmul := mul_lt_mul_of_pos_right hX hpi2
        calc a * π / 180 = a * (π / 180) := by ring
        _ < Real.arcsin (airIndex / n) * 180 / π * (π / 180) := hmul
        _ = Real.arcsin (airIndex / n) := by
            field_simp
      have hsin : Real.sin (a * π / 180) < airIndex / n := by
        have hmem : Real.sin (a * π / 180) < Real.sin (Real.arcsin (airIndex / n)) := by
          apply Real.strictMonoOn_sin
          · constructor
            · linarith [Real.pi_pos]
            · linarith
          · exact ⟨Real.neg_pi_div_two_le_arcsin _, Real.arcsin_le_pi_div_two _⟩
          · exact harc
        rwa [Real.sin_arcsin (by
            unfold airIndex
            have h1n : (0:ℝ) ≤ 1 / n := by positivity
            linarith) (by
            unfold airIndex
            rw [div_le_one hn0]
            exact hn)] at hmem
      have hprod : n * Real.sin (a * π / 180) < n * (airIndex / n) :=
        mul_lt_mul_of_pos_left hsin hn0
      have hair : n * (airIndex / n) = 1 := by
        unfold airIndex
        field_simp
      rwa [hair] at hprod
    have hexceeds : ¬ leftExceedsCritical s := by
      unfold leftExceedsCritical
      push_neg
      exact hlt
    have hargnn : 0 ≤ n / airIndex * Real.sin (a * π / 180) := by
      unfold airIndex
      exact mul_nonneg (by positivity) hsint0
    have harglt : n / airIndex * Real.sin (a * π / 180) < 1 := by
      unfold airIndex
      calc n / 1 * Real.sin (a * π / 180) = n * Real.sin (a * π / 180) := by ring
      _ < 1 := hsnell
    refine ⟨refractedDeg n a, if_neg hexceeds, ?_, ?_, ?_⟩
    · unfold refractedDeg
      have h1 : 0 ≤ Real.arcsin (n / airIndex * Real.sin (a * π / 180)) :=
        Real.arcsin_nonneg.mpr hargnn
      positivity
    · unfold refractedDeg
      have h1 : Real.arcsin (n / airIndex * Real.sin (a * π / 180)) < π / 2 :=
        Real.arcsin_lt_pi_div_two.mpr harglt
      calc Real.arcsin (n / airIndex * Real.sin (a * π / 180)) * 180 / π
          = Real.arcsin (n / airIndex * Real.sin (a * π / 180)) * (180 / π) := by ring
      _ < π / 2 * (180 / π) := mul_lt_mul_of_pos_right h1 hpi
      _ = 90 := by
          field_simp
          ring
    · unfold refractedDeg
      rw [degRadRoundtrip]
      rw [Real.sin_arcsin (by linarith [hargnn]) (le_of_lt harglt)]
      unfold airIndex
      ring

theorem sin_thirty_deg : Real.sin ((30 : ℝ) * π / 180) = 1 / 2 := by
  rw [(show (30 : ℝ) * π / 180 = π / 6 by ring), Real.sin_pi_div_six]

theorem arcsin_half : Real.arcsin ((1 : ℝ) / 2) = π / 6 := by
  rw [← Real.sin_pi_div_six]
  exact Real.arcsin_sin (by linarith [Real.pi_pos]) (by linarith [Real.pi_pos])

theorem criticalAngle_two : criticalAngle 2 = 30 := by
  unfold criticalAngle airIndex
  rw [arcsin_half]
  field_simp
  ring

theorem criticalAngle_one : criticalAngle 1 = 90 := by
  unfold criticalAngle airIndex
  norm_num [Real.arcsin_one]
  field_simp
  ring

theorem criticalAngle_le_90 {n : ℝ} (hn0 : 0 < n) : criticalAngle n ≤ 90 := by
  unfold criticalAngle
  have h1 : Real.arcsin (airIndex / n) ≤ π / 2 := Real.arcsin_le_pi_div_two _
  have hpi : (0 : ℝ) < 180 / π := by positivity
  calc Real.arcsin (airIndex / n) * 180 / π
      = Real.arcsin (airIndex / n) * (180 / π) := by ring
  _ ≤ π / 2 * (180 / π) := mul_le_mul_of_nonneg_right h1 (le_of_lt hpi)
  _ = 90 := by
      field_simp
      ring

theorem thirty_lt_criticalAngle_3half : (30 : ℝ) < criticalAngle 1.5 := by
  apply lt_criticalAngle_of_snell (by norm_num) (by norm_num) (by norm_num)
  rw [sin_thirty_deg]
  norm_num

/-- Closed witness for claim C2 at `n = 1.5`, incident angle 30 degrees. -/
theorem claim_C2_witness :
    ∃ r, leftRefractedAngle { initialState with refractiveIndex := 1.5 } = some r ∧
      0 ≤ r ∧ r < 90 ∧
      Real.sin (r * π / 180) = 1.5 * Real.sin ((30 : ℝ) * π / 180) := by
  have h := (claim_C2_refraction_valid_or_TIR
    { initialState with refractiveIndex := 1.5 }).2.2
    (by norm_num) (by norm_num)
    (by show (0:ℝ) ≤ 30; norm_num)
    (by show (30:ℝ) < criticalAngle 1.5; exact thirty_lt_criticalAngle_3half)
  exact h

/-- Claim C3: applying the source's air-to-water inverse refraction and then
its water-to-air refraction returns the original incident angle exactly, for
every index in `[1, 2)` and every incident angle below the critical angle. -/
theorem claim_C3_snell_round_trip (n a : ℝ) (hn1 : 1 ≤ n) (hn2 : n < 2)
    (h0 : 0 ≤ a) (hlt : a < criticalAngle n) :
    refractedDeg n (inverseRefractedDeg n a) = a := by
  have hn0 : (0 : ℝ) < n := by linarith
  have h90 : a < 90 := lt_of_lt_of_le hlt (criticalAngle_le_90 hn0)
  have ht0 : 0 ≤ a * π / 180 := deg_nonneg h0
  have ht2 : a * π / 180 < π / 2 := deg_lt_pi_div_two h90
  have hsint0 : 0 ≤ Real.sin (a * π / 180) :=
    Real.sin_nonneg_of_nonneg_of_le_pi ht0 (by linarith [Real.pi_pos])
  have hsint1 : Real.sin (a * π / 180) ≤ 1 := Real.sin_le_one _
  have hargnn : 0 ≤ airIndex / n * Real.sin (a * π / 180) := by
    unfold airIndex
    exact mul_nonneg (by positivity) hsint0
  have harg1 : airIndex / n * Real.sin (a * π / 180) ≤ 1 := by
    unfold airIndex
    have hinv : (1 : ℝ) / n ≤ 1 := by
      rw [div_le_one hn0]
      exact hn1
    calc 1 / n * Real.sin (a * π / 180) ≤ 1 * Real.sin (a * π / 180) :=
      mul_le_mul_of_nonneg_right hinv hsint0
    _ ≤ 1 := by linarith
  unfold inverseRefractedDeg refractedDeg
  rw [degRadRoundtrip]
  rw [Real.sin_arcsin (by linarith) harg1]
  have hcollapse : n / airIndex * (airIndex / n * Real.sin (a * π / 180)) =
      Real.sin (a * π / 180) := by
    unfold airIndex
    field_simp
  rw [hcollapse]
  rw [Real.arcsin_sin (by linarith) (by linarith)]
  field_simp

/-- Closed witness for claim C3 at `n = 1.5`, incident angle 30 degrees. -/
theorem claim_C3_witness :
    refractedDeg 1.5 (inverseRefractedDeg 1.5 30) = 30 :=
  claim_C3_snell_round_trip 1.5 30 (by norm_num) (by norm_num) (by norm_num)
    thirty_lt_criticalAngle_3half

/-- Counterexample for claim C7: at `n = 1` the critical-angle computed does
not return a distinguished "undefined" signal; it returns the ordinary
numeric angle 90, which then participates in the per-side TIR comparisons
like any other angle. -/
theorem claim_C7_counterexample :
    criticalAngle 1 = 90 ∧
      ¬ leftExceedsCritical { initialState with refractiveIndex := 1 } := by
  refine ⟨criticalAngle_one, ?_⟩
  unfold leftExceedsCritical
  show ¬ ((30:ℝ) ≥ criticalAngle 1)
  rw [criticalAngle_one]
  norm_num

/-- Claim C7 as amended: `criticalAngle n` is `asin(1/n)` in degrees for every
index; at the boundary `n = 1` it evaluates to the ordinary number 90 (not a
distinguished signal), and because the watcher clamps angles to at most 89.9
degrees no clamped angle can reach it — i.e. the code realises the "no TIR
possible at `n = 1`" policy through an ordinary comparison. -/
theorem claim_C7_amended_criticalAngle (n : ℝ) :
    criticalAngle n = Real.arcsin (1 / n) * 180 / π ∧
      criticalAngle 1 = 90 ∧
      (∀ s : SimState, s.refractiveIndex = 1 → s.leftAngleDeg ≤ 89.9 →
        s.rightAngleDeg ≤ 89.9 →
        ¬ leftExceedsCritical s ∧ ¬ rightExceedsCritical s) := by
  refine ⟨rfl, criticalAngle_one, ?_⟩
  intro s hs hL hR
  constructor
  · unfold leftExceedsCritical
    rw [hs, criticalAngle_one]
    push_neg
    linarith
  · unfold rightExceedsCritical
    rw [hs, criticalAngle_one]
    push_neg
    linarith

/-- Closed witness for the amended claim C7: at the initial state with the
index set to 1, neither side registers total internal reflection. -/
theorem claim_C7_witness :
    ¬ leftExceedsCritical { initialState with refractiveIndex := 1 } ∧
      ¬ rightExceedsCritical { initialState with refractiveIndex := 1 } :=
  (claim_C7_amended_criticalAngle 1).2.2 { initialState with refractiveIndex := 1 }
    rfl (by show (30:ℝ) ≤ 89.9; norm_num) (by show (30:ℝ) ≤ 89.9; norm_num)

/-- Closed witness for claim C8: with `n = 2` (critical angle 30 degrees) and
a left angle of 50 degrees the left side is in TIR and
`updateApparentFromReal` leaves the state untouched. -/
theorem claim_C8_witness :
    updateApparentFromReal
        { initialState with refractiveIndex := 2, leftAngleDeg := 50 } =
      { initialState with refractiveIndex := 2, leftAngleDeg := 50 } := by
  apply claim_C8_updateApparentFromReal_noop
  refine Or.inr (Or.inr (Or.inl ?_))
  unfold leftExceedsCritical
  show (50:ℝ) ≥ criticalAngle 2
  rw [criticalAngle_two]
  norm_num

/-! ### Geometry of the embedded ray and intersection computations -/

theorem raySlope_eq (p : Point) (a : ℝ) (P : Prop) :
    raySlope p a P =
      -Real.cos (a * π / 180) /
        (Real.sin (a * π / 180) * (if P then (-1:ℝ) else 1)) := by
  unfold raySlope calculateRayPoint
  dsimp only
  rw [(show p.y - 1000 * Real.cos (a * π / 180) - p.y
      = 1000 * -Real.cos (a * π / 180) by ring)]
  rw [(show p.x + 1000 * Real.sin (a * π / 180) * (if P then (-1:ℝ) else 1) - p.x
      = 1000 * (Real.sin (a * π / 180) * (if P then (-1:ℝ) else 1)) by ring)]
  exact mul_div_mul_left _ _ (by norm_num)

theorem intersectRays_x (p1 p2 : Point) (m1 m2 : ℝ) :
    (intersectRays p1 m1 p2 m2).x =
      (m1 * p1.x - p1.y - (m2 * p2.x - p2.y)) / (m1 - m2) := rfl

theorem intersectRays_y (p1 p2 : Point) (m1 m2 : ℝ) :
    (intersectRays p1 m1 p2 m2).y =
      m1 * ((intersectRays p1 m1 p2 m2).x - p1.x) + p1.y := rfl

theorem intersectRays_mem_left (p1 p2 : Point) (m1 m2 : ℝ) :
    (intersectRays p1 m1 p2 m2).y - p1.y =
      m1 * ((intersectRays p1 m1 p2 m2).x - p1.x) := by
  rw [intersectRays_y]
  ring

theorem intersectRays_mem_right (p1 p2 : Point) (m1 m2 : ℝ) (h : m1 - m2 ≠ 0) :
    (intersectRays p1 m1 p2 m2).y - p2.y =
      m2 * ((intersectRays p1 m1 p2 m2).x - p2.x) := by
  unfold intersectRays
  dsimp only
  field_simp
  ring

theorem intersectRays_y_offset (x1 x2 c m1 m2 : ℝ) (h : m1 - m2 ≠ 0) :
    (intersectRays ⟨x1, c⟩ m1 ⟨x2, c⟩ m2).y - c = m1 * m2 * (x1 - x2) / (m1 - m2) := by
  unfold intersectRays
  dsimp only
  field_simp
  ring

/-- Facts about the water-to-air refracted angle in radians.  With incident
angle `a` degrees in `(0, 90)` and `n * sin(aRad) < 1` (no TIR), the refracted
radian angle `arcsin (n * sin aRad)` lies in `(0, pi/2)` and its sine is
`n * sin aRad`. -/
theorem refracted_rad_facts {n a : ℝ} (hn : 1 ≤ n) (h0 : 0 < a) (h90 : a < 90)
    (hs : n * Real.sin (a * π / 180) < 1) :
    0 < Real.arcsin (n * Real.sin (a * π / 180)) ∧
      Real.arcsin (n * Real.sin (a * π / 180)) < π / 2 ∧
      Real.sin (Real.arcsin (n * Real.sin (a * π / 180))) =
        n * Real.sin (a * π / 180) ∧
      0 < Real.cos (Real.arcsin (n * Real.sin (a * π / 180))) := by
  have hn0 : (0:ℝ) < n := by linarith
  have ht0 : 0 < a * π / 180 := deg_pos h0
  have ht2 : a * π / 180 < π / 2 := deg_lt_pi_div_two h90
  have hsin0 : 0 < Real.sin (a * π / 180) :=
    Real.sin_pos_of_pos_of_lt_pi ht0 (by linarith [Real.pi_pos])
  have harg0 : 0 < n * Real.sin (a * π / 180) := mul_pos hn0 hsin0
  have h1 : 0 < Real.arcsin (n * Real.sin (a * π / 180)) := Real.arcsin_pos.mpr harg0
  have h2 : Real.arcsin (n * Real.sin (a * π / 180)) < π / 2 :=
    Real.arcsin_lt_pi_div_two.mpr hs
  have h3 : Real.sin (Real.arcsin (n * Real.sin (a * π / 180))) =
      n * Real.sin (a * π / 180) :=
    Real.sin_arcsin (by linarith) (le_of_lt hs)
  have h4 : 0 < Real.cos (Real.arcsin (n * Real.sin (a * π / 180))) :=
    Real.cos_pos_of_mem_Ioo ⟨by linarith, h2⟩
  exact ⟨h1, h2, h3, h4⟩

theorem refractedDeg_as_rad {n a : ℝ} :
    refractedDeg n a = Real.arcsin (n * Real.sin (a * π / 180)) * 180 / π := by
  unfold refractedDeg airIndex
  norm_num

/-- Evaluation of `realPosition` on a symmetric configuration: refraction
points at `c - d` and `c + d` on the interface, the apparent position
horizontally centred at `c`, equal angles `a` on both sides, no TIR.  The
intersection lands exactly on the vertical symmetry axis `x = c`, above the
interface. -/
theorem realPosition_symmetric (s : SimState) (c d a n : ℝ)
    (hn : s.refractiveIndex = n)
    (hL : s.leftPoint = ⟨c - d, waterLevelY⟩)
    (hR : s.rightPoint = ⟨c + d, waterLevelY⟩)
    (hax : s.apparentPosition.x = c)
    (haL : s.leftAngleDeg = a) (haR : s.rightAngleDeg = a)
    (hd : 0 < d) (h0 : 0 < a) (h90 : a < 90) (hn1 : 1 ≤ n)
    (hs : n * Real.sin (a * π / 180) < 1) :
    realPosition s =
      some ⟨c, waterLevelY - d *
        (Real.cos (Real.arcsin (n * Real.sin (a * π / 180))) /
          Real.sin (Real.arcsin (n * Real.sin (a * π / 180))))⟩ := by
  obtain ⟨hρ0, hρ2, hρsin, hρcos⟩ := refracted_rad_facts hn1 h0 h90 hs
  set ρ := Real.arcsin (n * Real.sin (a * π / 180)) with hρ
  have hsinρ : 0 < Real.sin ρ := by
    rw [hρsin]
    have hn0 : (0:ℝ) < n := by linarith
    have hsin0 : 0 < Real.sin (a * π / 180) :=
      Real.sin_pos_of_pos_of_lt_pi (deg_pos h0) (by linarith [Real.pi_pos, deg_lt_pi_div_two h90])
    exact mul_pos hn0 hsin0
  have hnotL : ¬ leftExceedsCritical s := by
    unfold leftExceedsCritical
    rw [hn, haL]
    push_neg
    exact lt_criticalAngle_of_snell hn1 (le_of_lt h0) h90 hs
  have hnotR : ¬ rightExceedsCritical s := by
    unfold rightExceedsCritical
    rw [hn, haR]
    push_neg
    exact lt_criticalAngle_of_snell hn1 (le_of_lt h0) h90 hs
  unfold realPosition
  rw [if_neg (by
    rintro (h | h)
    · exact hnotL h
    · exact hnotR h)]
  dsimp only
  rw [hn, haL, haR, hax, hL, hR]
  dsimp only
  rw [refractedDeg_as_rad, ← hρ]
  rw [raySlope_eq, raySlope_eq, degRadRoundtrip]
  rw [if_neg (show ¬ (c < c - d) by linarith), if_pos (show c < c + d by linarith)]
  set k := Real.cos ρ / Real.sin ρ with hk
  have hk0 : 0 < k := div_pos hρcos hsinρ
  have hmL : -Real.cos ρ / (Real.sin ρ * 1) = -k := by
    rw [hk]
    field_simp
  have hmR : -Real.cos ρ / (Real.sin ρ * (-1)) = k := by
    rw [hk]
    field_simp
  rw [hmL, hmR]
  congr 1
  have hsub : (-k) - k ≠ 0 := by
    intro hcon
    nlinarith
  apply Point.ext
  · rw [intersectRays_x]
    dsimp only
    field_simp
    ring
  · rw [intersectRays_y, intersectRays_x]
    dsimp only
    field_simp
    ring

/-- Claim C1 evaluated at the failing input: with `n = 1.5`, both angles 30
degrees and the apparent position at `x = 0` (left of both refraction points,
so both rays are mirrored the same way and have equal slopes), neither side is
in TIR, the two derived rays are parallel, and yet `realPosition` does not
signal "position unavailable": it still returns a point, produced by dividing
by the zero slope difference (in JavaScript: Infinity coordinates). -/
theorem claim_C1_parallel_rays_not_signalled :
    ¬ leftExceedsCritical { initialState with refractiveIndex := 1.5, apparentPosition := ⟨0, 200⟩ } ∧
    ¬ rightExceedsCritical { initialState with refractiveIndex := 1.5, apparentPosition := ⟨0, 200⟩ } ∧
    raySlope (⟨250, waterLevelY⟩ : Point) (refractedDeg 1.5 30) ((0:ℝ) < 250) =
      raySlope (⟨550, waterLevelY⟩ : Point) (refractedDeg 1.5 30) ((0:ℝ) < 550) ∧
    realPosition { initialState with refractiveIndex := 1.5, apparentPosition := ⟨0, 200⟩ } ≠ none := by
  have hnotL : ¬ leftExceedsCritical { initialState with refractiveIndex := 1.5, apparentPosition := ⟨0, 200⟩ } := by
    unfold leftExceedsCritical
    show ¬ ((30:ℝ) ≥ criticalAngle 1.5)
    push_neg
    exact thirty_lt_criticalAngle_3half
  have hnotR : ¬ rightExceedsCritical { initialState with refractiveIndex := 1.5, apparentPosition := ⟨0, 200⟩ } := by
    unfold rightExceedsCritical
    show ¬ ((30:ℝ) ≥ criticalAngle 1.5)
    push_neg
    exact thirty_lt_criticalAngle_3half
  refine ⟨hnotL, hnotR, ?_, ?_⟩
  · rw [raySlope_eq, raySlope_eq]
    rw [if_pos (show (0:ℝ) < 250 by norm_num), if_pos (show (0:ℝ) < 550 by norm_num)]
  · unfold realPosition
    rw [if_neg (by
      rintro (h | h)
      · exact hnotL h
      · exact hnotR h)]
    exact Option.some_ne_none _

/-! ### Rational bounds on sine and cosine near concrete angles -/

theorem sqrt_two_gt : (1.414213 : ℝ) < Real.sqrt 2 :=
  (Real.lt_sqrt (by norm_num)).mpr (by norm_num)

theorem sqrt_two_lt : Real.sqrt 2 < 1.414214 :=
  (Real.sqrt_lt' (by norm_num)).mpr (by norm_num)

theorem sin_upper_of_bounds {d lo hi : ℝ} (h0 : 0 ≤ lo) (hlo : lo ≤ d)
    (hhi : d ≤ hi) (h1 : hi ≤ 1) :
    Real.sin d ≤ hi - lo ^ 3 / 6 + hi ^ 4 * (5 / 96) := by
  have hd0 : 0 ≤ d := le_trans h0 hlo
  have habs : |d| ≤ 1 := by
    rw [abs_of_nonneg hd0]
    linarith
  have hb := Real.sin_bound habs
  rw [abs_of_nonneg hd0] at hb
  have hb1 := (abs_le.mp hb).2
  have h3 : lo ^ 3 ≤ d ^ 3 := pow_le_pow_left h0 hlo 3
  have h4 : d ^ 4 ≤ hi ^ 4 := pow_le_pow_left hd0 hhi 4
  nlinarith [hb1]

theorem sin_lower_of_bounds {d lo hi : ℝ} (h0 : 0 ≤ lo) (hlo : lo ≤ d)
    (hhi : d ≤ hi) (h1 : hi ≤ 1) :
    lo - hi ^ 3 / 6 - hi ^ 4 * (5 / 96) ≤ Real.sin d := by
  have hd0 : 0 ≤ d := le_trans h0 hlo
  have habs : |d| ≤ 1 := by
    rw [abs_of_nonneg hd0]
    linarith
  have hb := Real.sin_bound habs
  rw [abs_of_nonneg hd0] at hb
  have hb1 := (abs_le.mp hb).1
  have h3 : d ^ 3 ≤ hi ^ 3 := pow_le_pow_left hd0 hhi 3
  have h4 : d ^ 4 ≤ hi ^ 4 := pow_le_pow_left hd0 hhi 4
  nlinarith [hb1]

theorem cos_upper_of_bounds {d lo hi : ℝ} (h0 : 0 ≤ lo) (hlo : lo ≤ d)
    (hhi : d ≤ hi) (h1 : hi ≤ 1) :
    Real.cos d ≤ 1 - lo ^ 2 / 2 + hi ^ 4 * (5 / 96) := by
  have hd0 : 0 ≤ d := le_trans h0 hlo
  have habs : |d| ≤ 1 := by
    rw [abs_of_nonneg hd0]
    linarith
  have hb := Real.cos_bound habs
  rw [abs_of_nonneg hd0] at hb
  have hb1 := (abs_le.mp hb).2
  have h2 : lo ^ 2 ≤ d ^ 2 := pow_le_pow_left h0 hlo 2
  have h4 : d ^ 4 ≤ hi ^ 4 := pow_le_pow_left hd0 hhi 4
  nlinarith [hb1]

theorem cos_lower_of_bounds {d lo hi : ℝ} (h0 : 0 ≤ lo) (hlo : lo ≤ d)
    (hhi : d ≤ hi) (h1 : hi ≤ 1) :
    1 - hi ^ 2 / 2 - hi ^ 4 * (5 / 96) ≤ Real.cos d := by
  have hd0 : 0 ≤ d := le_trans h0 hlo
  have habs : |d| ≤ 1 := by
    rw [abs_of_nonneg hd0]
    linarith
  have hb := Real.cos_bound habs
  rw [abs_of_nonneg hd0] at hb
  have hb1 := (abs_le.mp hb).1
  have h2 : d ^ 2 ≤ hi ^ 2 := pow_le_pow_left hd0 hhi 2
  have h4 : d ^ 4 ≤ hi ^ 4 := pow_le_pow_left hd0 hhi 4
  nlinarith [hb1]

theorem sin_pi_div_four_add (e : ℝ) :
    Real.sin (π / 4 + e) = Real.sqrt 2 / 2 * (Real.cos e + Real.sin e) := by
  rw [Real.sin_add, Real.sin_pi_div_four, Real.cos_pi_div_four]
  ring

theorem sin_pi_div_four_sub (e : ℝ) :
    Real.sin (π / 4 - e) = Real.sqrt 2 / 2 * (Real.cos e - Real.sin e) := by
  rw [Real.sin_sub, Real.sin_pi_div_four, Real.cos_pi_div_four]
  ring

theorem deg_lt_of_rad_lt {a b : ℝ} (h : a * π / 180 < b) : a < b * 180 / π := by
  have hpi : (0 : ℝ) < 180 / π := by positivity
  have hm := mul_lt_mul_of_pos_right h hpi
  calc a = a * π / 180 * (180 / π) := by field_simp
  _ < b * (180 / π) := hm
  _ = b * 180 / π := by ring

theorem rad_lt_of_lt_deg {a b : ℝ} (h : b * 180 / π < a) : b < a * π / 180 := by
  have hpi : (0 : ℝ) < π / 180 := by positivity
  have hm := mul_lt_mul_of_pos_right h hpi
  calc b = b * 180 / π * (π / 180) := by field_simp
  _ < a * (π / 180) := hm
  _ = a * π / 180 := by ring

theorem sin_487_lt : Real.sin ((48.7 : ℝ) * π / 180) < 100 / 133 := by
  have hpilo := Real.pi_gt_d6
  have hpihi := Real.pi_lt_d6
  have helo : (0.0645771 : ℝ) ≤ 37 * π / 1800 := by nlinarith
  have hehi : 37 * π / 1800 ≤ (0.0645772 : ℝ) := by nlinarith
  have hs := sin_upper_of_bounds (by norm_num) helo hehi (by norm_num)
  have hc := cos_upper_of_bounds (by norm_num) helo hehi (by norm_num)
  have hsum : Real.cos (37 * π / 1800) + Real.sin (37 * π / 1800) ≤ 1.0624491 := by
    nlinarith [hs, hc]
  have hsumnn : 0 ≤ Real.cos (37 * π / 1800) + Real.sin (37 * π / 1800) := by
    have h1 := cos_lower_of_bounds (by norm_num) helo hehi (by norm_num)
    have h2 := sin_lower_of_bounds (by norm_num) helo hehi (by norm_num)
    nlinarith [h1, h2]
  rw [(show (48.7 : ℝ) * π / 180 = π / 4 + 37 * π / 1800 by ring), sin_pi_div_four_add]
  have hsq : Real.sqrt 2 / 2 ≤ 1.414214 / 2 := by linarith [sqrt_two_lt]
  calc Real.sqrt 2 / 2 * (Real.cos (37 * π / 1800) + Real.sin (37 * π / 1800))
      ≤ 1.414214 / 2 * 1.0624491 :=
        mul_le_mul hsq hsum hsumnn (by norm_num)
  _ < 100 / 133 := by norm_num

theorem sin_488_gt : (100 : ℝ) / 133 < Real.sin ((48.8 : ℝ) * π / 180) := by
  have hpilo := Real.pi_gt_d6
  have hpihi := Real.pi_lt_d6
  have helo : (0.0663224 : ℝ) ≤ 38 * π / 1800 := by nlinarith
  have hehi : 38 * π / 1800 ≤ (0.0663226 : ℝ) := by nlinarith
  have hs := sin_lower_of_bounds (by norm_num) helo hehi (by norm_num)
  have hc := cos_lower_of_bounds (by norm_num) helo hehi (by norm_num)
  have hsum : (1.0640724 : ℝ) ≤ Real.cos (38 * π / 1800) + Real.sin (38 * π / 1800) := by
    nlinarith [hs, hc]
  rw [(show (48.8 : ℝ) * π / 180 = π / 4 + 38 * π / 1800 by ring), sin_pi_div_four_add]
  have hsq : (1.414213 : ℝ) / 2 ≤ Real.sqrt 2 / 2 := by linarith [sqrt_two_gt]
  calc (100 : ℝ) / 133 < 1.414213 / 2 * 1.0640724 := by norm_num
  _ ≤ Real.sqrt 2 / 2 * (Real.cos (38 * π / 1800) + Real.sin (38 * π / 1800)) :=
        mul_le_mul hsq hsum (by norm_num) (by positivity)

theorem sin_416_lt : Real.sin ((41.6 : ℝ) * π / 180) < 133 / 200 := by
  have hpilo := Real.pi_gt_d6
  have hpihi := Real.pi_lt_d6
  have helo : (0.0593411 : ℝ) ≤ 34 * π / 1800 := by nlinarith
  have hehi : 34 * π / 1800 ≤ (0.0593413 : ℝ) := by nlinarith
  have hc := cos_upper_of_bounds (by norm_num) helo hehi (by norm_num)
  have hs := sin_lower_of_bounds (by norm_num) helo hehi (by norm_num)
  have hdiff : Real.cos (34 * π / 1800) - Real.sin (34 * π / 1800) ≤ 0.9389344 := by
    nlinarith [hc, hs]
  have hdiffnn : 0 ≤ Real.cos (34 * π / 1800) - Real.sin (34 * π / 1800) := by
    have h1 := cos_lower_of_bounds (by norm_num) helo hehi (by norm_num)
    have h2 := sin_upper_of_bounds (by norm_num) helo hehi (by norm_num)
    nlinarith [h1, h2]
  rw [(show (41.6 : ℝ) * π / 180 = π / 4 - 34 * π / 1800 by ring), sin_pi_div_four_sub]
  have hsq : Real.sqrt 2 / 2 ≤ 1.414214 / 2 := by linarith [sqrt_two_lt]
  calc Real.sqrt 2 / 2 * (Real.cos (34 * π / 1800) - Real.sin (34 * π / 1800))
      ≤ 1.414214 / 2 * 0.9389344 :=
        mul_le_mul hsq hdiff hdiffnn (by norm_num)
  _ < 133 / 200 := by norm_num

theorem sin_418_gt : (133 : ℝ) / 200 < Real.sin ((41.8 : ℝ) * π / 180) := by
  have hpilo := Real.pi_gt_d6
  have hpihi := Real.pi_lt_d6
  have helo : (0.0558505 : ℝ) ≤ 32 * π / 1800 := by nlinarith
  have hehi : 32 * π / 1800 ≤ (0.0558506 : ℝ) := by nlinarith
  have hc := cos_lower_of_bounds (by norm_num) helo hehi (by norm_num)
  have hs := sin_upper_of_bounds (by norm_num) helo hehi (by norm_num)
  have hdiff : (0.9426177 : ℝ) ≤ Real.cos (32 * π / 1800) - Real.sin (32 * π / 1800) := by
    nlinarith [hc, hs]
  rw [(show (41.8 : ℝ) * π / 180 = π / 4 - 32 * π / 1800 by ring), sin_pi_div_four_sub]
  have hsq : (1.414213 : ℝ) / 2 ≤ Real.sqrt 2 / 2 := by linarith [sqrt_two_gt]
  calc (133 : ℝ) / 200 < 1.414213 / 2 * 0.9426177 := by norm_num
  _ ≤ Real.sqrt 2 / 2 * (Real.cos (32 * π / 1800) - Real.sin (32 * π / 1800)) :=
        mul_le_mul hsq hdiff (by norm_num) (by positivity)

theorem deg_of_rad_lt {a b : ℝ} (h : b < a * π / 180) : b * 180 / π < a := by
  have hm := mul_lt_mul_of_pos_right h (show (0:ℝ) < 180 / π by positivity)
  calc b * 180 / π = b * (180 / π) := by ring
  _ < a * π / 180 * (180 / π) := hm
  _ = a := by field_simp

theorem criticalAngle_133_arg : airIndex / (1.33 : ℝ) = 100 / 133 := by
  unfold airIndex
  norm_num

theorem criticalAngle_133_gt : (48.7 : ℝ) < criticalAngle 1.33 := by
  unfold criticalAngle
  rw [criticalAngle_133_arg]
  apply deg_lt_of_rad_lt
  exact arcsin_gt_of_sin_lt (by positivity) (deg_le_pi_div_two (by norm_num))
    sin_487_lt (by norm_num)

theorem criticalAngle_133_lt : criticalAngle 1.33 < 48.8 := by
  unfold criticalAngle
  rw [criticalAngle_133_arg]
  apply deg_of_rad_lt
  exact arcsin_lt_of_lt_sin (by positivity) (deg_le_pi_div_two (by norm_num))
    (by norm_num) sin_488_gt

theorem refractedDeg_133_30_arg :
    (1.33 : ℝ) * Real.sin ((30 : ℝ) * π / 180) = 133 / 200 := by
  rw [sin_thirty_deg]
  norm_num

theorem refractedDeg_133_30_gt : (41.6 : ℝ) < refractedDeg 1.33 30 := by
  rw [refractedDeg_as_rad, refractedDeg_133_30_arg]
  apply deg_lt_of_rad_lt
  exact arcsin_gt_of_sin_lt (by positivity) (deg_le_pi_div_two (by norm_num))
    sin_416_lt (by norm_num)

theorem refractedDeg_133_30_lt : refractedDeg 1.33 30 < 41.8 := by
  rw [refractedDeg_as_rad, refractedDeg_133_30_arg]
  apply deg_of_rad_lt
  exact arcsin_lt_of_lt_sin (by positivity) (deg_le_pi_div_two (by norm_num))
    (by norm_num) sin_418_gt

/-- Counterexample for claim C4 as stated: in the `n = 1.33`, 30-degree
scenario the water-to-air refracted angle is not approximately 41.1 degrees —
it exceeds 41.6 degrees (its true value is about 41.69), so it misses 41.1 by
more than 0.4 degrees. -/
theorem claim_C4_counterexample :
    leftRefractedAngle initialState = some (refractedDeg 1.33 30) ∧
      ¬ (|refractedDeg 1.33 30 - 41.1| ≤ 0.4) := by
  constructor
  · apply if_neg
    unfold leftExceedsCritical
    show ¬ ((30:ℝ) ≥ criticalAngle 1.33)
    push_neg
    linarith [criticalAngle_133_gt]
  · intro h
    have h2 := (abs_le.mp h).2
    linarith [refractedDeg_133_30_gt]

/-- Claim C4 as amended: in the scenario `n = 1.33`, refraction points at
`x = 250` and `x = 550` on the interface, both angles 30 degrees (the initial
state), the critical angle is about 48.75 degrees (between 48.7 and 48.8),
both water-to-air refracted angles are about 41.7 degrees (between 41.6 and
41.8 — not 41.1 as the specification claims), and `realPosition` returns a
point with `x = 400` (the midpoint) and `y < 450`; in general, for any
symmetric configuration (points equidistant from a horizontally centred
apparent position, equal angles, no TIR) the intersection lands on the
midpoint axis above the interface. -/
theorem claim_C4_symmetric_scenario :
    (48.7 < criticalAngle 1.33 ∧ criticalAngle 1.33 < 48.8) ∧
    (41.6 < refractedDeg 1.33 30 ∧ refractedDeg 1.33 30 < 41.8) ∧
    (∃ y, realPosition initialState = some ⟨400, y⟩ ∧ y < waterLevelY) ∧
    (∀ (s : SimState) (c d a n : ℝ), s.refractiveIndex = n →
      s.leftPoint = ⟨c - d, waterLevelY⟩ → s.rightPoint = ⟨c + d, waterLevelY⟩ →
      s.apparentPosition.x = c → s.leftAngleDeg = a → s.rightAngleDeg = a →
      0 < d → 0 < a → a < 90 → 1 ≤ n → n * Real.sin (a * π / 180) < 1 →
      ∃ y, realPosition s = some ⟨(s.leftPoint.x + s.rightPoint.x) / 2, y⟩ ∧
        y < waterLevelY) := by
  have hgeneral : ∀ (s : SimState) (c d a n : ℝ), s.refractiveIndex = n →
      s.leftPoint = ⟨c - d, waterLevelY⟩ → s.rightPoint = ⟨c + d, waterLevelY⟩ →
      s.apparentPosition.x = c → s.leftAngleDeg = a → s.rightAngleDeg = a →
      0 < d → 0 < a → a < 90 → 1 ≤ n → n * Real.sin (a * π / 180) < 1 →
      ∃ y, realPosition s = some ⟨(s.leftPoint.x + s.rightPoint.x) / 2, y⟩ ∧
        y < waterLevelY := by
    intro s c d a n hn hL hR hax haL haR hd h0 h90 hn1 hs
    obtain ⟨hρ0, hρ2, hρsin, hρcos⟩ := refracted_rad_facts hn1 h0 h90 hs
    have hsinρ : 0 < Real.sin (Real.arcsin (n * Real.sin (a * π / 180))) := by
      rw [hρsin]
      have hn0 : (0:ℝ) < n := by linarith
      exact mul_pos hn0 (Real.sin_pos_of_pos_of_lt_pi (deg_pos h0)
        (by linarith [Real.pi_pos, deg_lt_pi_div_two h90]))
    have hmid : (s.leftPoint.x + s.rightPoint.x) / 2 = c := by
      rw [hL, hR]
      dsimp only
      ring
    rw [hmid]
    refine ⟨waterLevelY - d *
      (Real.cos (Real.arcsin (n * Real.sin (a * π / 180))) /
        Real.sin (Real.arcsin (n * Real.sin (a * π / 180)))), ?_, ?_⟩
    · exact realPosition_symmetric s c d a n hn hL hR hax haL haR hd h0 h90 hn1 hs
    · have hk : 0 < Real.cos (Real.arcsin (n * Real.sin (a * π / 180))) /
          Real.sin (Real.arcsin (n * Real.sin (a * π / 180))) :=
        div_pos hρcos hsinρ
      nlinarith
  refine ⟨⟨criticalAngle_133_gt, criticalAngle_133_lt⟩,
    ⟨refractedDeg_133_30_gt, refractedDeg_133_30_lt⟩, ?_, hgeneral⟩
  have h := hgeneral initialState 400 150 30 1.33 rfl
    (by apply Point.ext <;> norm_num [initialState, waterLevelY])
    (by apply Point.ext <;> norm_num [initialState, waterLevelY])
    rfl rfl rfl (by norm_num) (by norm_num) (by norm_num) (by norm_num)
    (by rw [sin_thirty_deg]; norm_num)
  obtain ⟨y, hy, hylt⟩ := h
  refine ⟨y, ?_, hylt⟩
  rw [hy]
  congr 1
  apply Point.ext
  · show (initialState.leftPoint.x + initialState.rightPoint.x) / 2 = 400
    norm_num [initialState]
  · rfl

/-- Closed witness for the amended claim C4, instantiating its universally
quantified symmetric-configuration part at the initial state. -/
theorem claim_C4_witness :
    ∃ y, realPosition initialState =
        some ⟨(initialState.leftPoint.x + initialState.rightPoint.x) / 2, y⟩ ∧
      y < waterLevelY :=
  claim_C4_symmetric_scenario.2.2.2 initialState 400 150 30 1.33 rfl
    (by apply Point.ext <;> norm_num [initialState, waterLevelY])
    (by apply Point.ext <;> norm_num [initialState, waterLevelY])
    rfl rfl rfl (by norm_num) (by norm_num) (by norm_num) (by norm_num)
    (by rw [sin_thirty_deg]; norm_num)

/-! ### Lemmas for the angle-to-apparent-to-angle reconciliation cycle -/

theorem cot_lt_cot {t1 t2 : ℝ} (h10 : 0 < t1) (h22 : t2 < π / 2) (hlt : t1 < t2) :
    Real.cos t2 / Real.sin t2 < Real.cos t1 / Real.sin t1 := by
  have hs1 : 0 < Real.sin t1 :=
    Real.sin_pos_of_pos_of_lt_pi h10 (by linarith [Real.pi_pos])
  have hs2 : 0 < Real.sin t2 :=
    Real.sin_pos_of_pos_of_lt_pi (by linarith) (by linarith [Real.pi_pos])
  rw [div_lt_div_iff hs2 hs1]
  have hsinsub : 0 < Real.sin (t2 - t1) :=
    Real.sin_pos_of_pos_of_lt_pi (by linarith) (by linarith [Real.pi_pos])
  rw [Real.sin_sub] at hsinsub
  nlinarith

theorem refr_arcsin_lt {n t1 t2 : ℝ} (hn : 0 < n) (h10 : 0 < t1) (h22 : t2 < π / 2)
    (hs2 : n * Real.sin t2 ≤ 1) (hlt : t1 < t2) :
    Real.arcsin (n * Real.sin t1) < Real.arcsin (n * Real.sin t2) := by
  have hs1p : 0 < Real.sin t1 :=
    Real.sin_pos_of_pos_of_lt_pi h10 (by linarith [Real.pi_pos])
  have hsinlt : Real.sin t1 < Real.sin t2 := by
    apply Real.strictMonoOn_sin
    · exact ⟨by linarith [Real.pi_pos], by linarith⟩
    · exact ⟨by linarith [Real.pi_pos], le_of_lt h22⟩
    · exact hlt
  have harg : n * Real.sin t1 < n * Real.sin t2 := by nlinarith
  apply Real.strictMonoOn_arcsin
  · constructor
    · nlinarith
    · nlinarith
  · constructor
    · nlinarith
    · exact hs2
  · exact harg

theorem neg_div_mul_dir {c s D : ℝ} (hD : D = 1 ∨ D = -1) :
    -c / (s * D) = -(c / s) * D := by
  rcases hD with h | h
  · rw [h, mul_one, mul_one, neg_div]
  · rw [h, mul_neg_one, div_neg]
    rw [neg_div]
    ring

theorem recover_angle_dir {t w D : ℝ} (ht0 : 0 < t) (ht2 : t < π / 2) (hw : 0 < w)
    (hD : D = 1 ∨ D = -1) :
    |jsAtan2 (w * (Real.sin t / Real.cos t) * D) w| = t := by
  have hw' : w ≠ 0 := ne_of_gt hw
  have hcos : 0 < Real.cos t := Real.cos_pos_of_mem_Ioo ⟨by linarith, ht2⟩
  rw [jsAtan2_pos_x _ _ hw]
  have harg : w * (Real.sin t / Real.cos t) * D / w = Real.sin t / Real.cos t * D := by
    field_simp
    ring
  rw [harg, ← Real.tan_eq_sin_div_cos]
  rcases hD with h | h
  · rw [h, mul_one, Real.arctan_tan (by linarith) ht2]
    exact abs_of_pos ht0
  · rw [h, mul_neg_one, ← Real.tan_neg,
      Real.arctan_tan (by linarith) (by linarith), abs_neg]
    exact abs_of_pos ht0

theorem recover_incident_dir {t w D : ℝ} (ht0 : 0 < t) (ht2 : t < π / 2) (hw : 0 < w)
    (hD : D = 1 ∨ D = -1) :
    jsAtan2 |w * (Real.sin t / Real.cos t) * D| |(-w)| = t := by
  have hw' : w ≠ 0 := ne_of_gt hw
  have hsin : 0 < Real.sin t :=
    Real.sin_pos_of_pos_of_lt_pi ht0 (by linarith [Real.pi_pos])
  have hcos : 0 < Real.cos t := Real.cos_pos_of_mem_Ioo ⟨by linarith, ht2⟩
  have habsD : |D| = 1 := by
    rcases hD with h | h <;> rw [h] <;> norm_num
  have habs : |w * (Real.sin t / Real.cos t) * D| = w * (Real.sin t / Real.cos t) := by
    rw [abs_mul, abs_mul, habsD, mul_one, abs_of_pos hw,
      abs_of_pos (div_pos hsin hcos)]
  rw [abs_neg, abs_of_pos hw, habs, jsAtan2_pos_x _ _ hw]
  have harg : w * (Real.sin t / Real.cos t) / w = Real.sin t / Real.cos t := by
    field_simp
    ring
  rw [harg, ← Real.tan_eq_sin_div_cos, Real.arctan_tan (by linarith) ht2]

theorem slopes_ne {uL uR DL DR : ℝ} (huL : 0 < uL) (huR : 0 < uR)
    (hDL : DL = 1 ∨ DL = -1) (hDR : DR = 1 ∨ DR = -1)
    (hside : DL = DR → uL ≠ uR) :
    -uL * DL ≠ -uR * DR := by
  rcases hDL with h | h <;> rcases hDR with h' | h' <;> rw [h, h'] <;> intro hcon
  · exact hside (by rw [h, h']) (by nlinarith)
  · nlinarith
  · nlinarith
  · exact hside (by rw [h, h']) (by nlinarith)

theorem transfer_sameD {u1 u2 v1 v2 S d : ℝ} (hu1 : 0 < u1) (hu2 : 0 < u2)
    (hv1 : 0 < v1) (hv2 : 0 < v2) (hd : d = 1 ∨ d = -1)
    (hcmp : v1 < v2 ↔ u1 < u2) (hcmp' : v2 < v1 ↔ u2 < u1)
    (hair : -v1 * d * (-v2 * d) * S / (-v1 * d - -v2 * d) < 0) :
    -u1 * d * (-u2 * d) * S / (-u1 * d - -u2 * d) < 0 := by
  have hd2 : d * d = 1 := by
    rcases hd with h | h <;> rw [h] <;> norm_num
  have hv12 : -v1 * d * (-v2 * d) * S = v1 * v2 * S * (d * d) := by ring
  have hvden : -v1 * d - -v2 * d = (v2 - v1) * d := by ring
  have hu12 : -u1 * d * (-u2 * d) * S = u1 * u2 * S * (d * d) := by ring
  have huden : -u1 * d - -u2 * d = (u2 - u1) * d := by ring
  rw [hv12, hvden, hd2, mul_one] at hair
  rw [hu12, huden, hd2, mul_one]
  rcases lt_trichotomy v1 v2 with hv | hv | hv
  · have hu : u1 < u2 := hcmp.mp hv
    rcases hd with h | h
    · rw [h, mul_one] at hair ⊢
      have hdenpos : 0 < v2 - v1 := by linarith
      have hnum : v1 * v2 * S < 0 := by
        rcases div_neg_iff.mp hair with ⟨_, hc⟩ | ⟨hc, _⟩
        · linarith
        · exact hc
      have hS : S < 0 := by nlinarith [mul_pos hv1 hv2]
      apply div_neg_iff.mpr
      exact Or.inr ⟨by nlinarith [mul_pos hu1 hu2], by linarith⟩
    · rw [h] at hair ⊢
      have hdenneg : (v2 - v1) * (-1 : ℝ) < 0 := by nlinarith
      have hnum : 0 < v1 * v2 * S := by
        rcases div_neg_iff.mp hair with ⟨hc, _⟩ | ⟨_, hc⟩
        · exact hc
        · linarith
      have hS : 0 < S := by nlinarith [mul_pos hv1 hv2]
      apply div_neg_iff.mpr
      exact Or.inl ⟨by nlinarith [mul_pos hu1 hu2], by nlinarith⟩
  · exfalso
    rw [hv, sub_self, zero_mul, div_zero] at hair
    exact lt_irrefl 0 hair
  · have hu : u2 < u1 := hcmp'.mp hv
    rcases hd with h | h
    · rw [h, mul_one] at hair ⊢
      have hdenneg : v2 - v1 < 0 := by linarith
      have hnum : 0 < v1 * v2 * S := by
        rcases div_neg_iff.mp hair with ⟨hc, _⟩ | ⟨_, hc⟩
        · exact hc
        · linarith
      have hS : 0 < S := by nlinarith [mul_pos hv1 hv2]
      apply div_neg_iff.mpr
      exact Or.inl ⟨by nlinarith [mul_pos hu1 hu2], by linarith⟩
    · rw [h] at hair ⊢
      have hdenpos : 0 < (v2 - v1) * (-1 : ℝ) := by nlinarith
      have hnum : v1 * v2 * S < 0 := by
        rcases div_neg_iff.mp hair with ⟨_, hc⟩ | ⟨hc, _⟩
        · linarith
        · exact hc
      have hS : S < 0 := by nlinarith [mul_pos hv1 hv2]
      apply div_neg_iff.mpr
      exact Or.inr ⟨by nlinarith [mul_pos hu1 hu2], by nlinarith⟩

theorem transfer_diffD {u1 u2 v1 v2 S d : ℝ} (hu1 : 0 < u1) (hu2 : 0 < u2)
    (hv1 : 0 < v1) (hv2 : 0 < v2) (hd : d = 1 ∨ d = -1)
    (hair : -v1 * d * (-v2 * -d) * S / (-v1 * d - -v2 * -d) < 0) :
    -u1 * d * (-u2 * -d) * S / (-u1 * d - -u2 * -d) < 0 := by
  have hd2 : d * d = 1 := by
    rcases hd with h | h <;> rw [h] <;> norm_num
  have hv12 : -v1 * d * (-v2 * -d) * S = -(v1 * v2) * S * (d * d) := by ring
  have hvden : -v1 * d - -v2 * -d = -(v1 + v2) * d := by ring
  have hu12 : -u1 * d * (-u2 * -d) * S = -(u1 * u2) * S * (d * d) := by ring
  have huden : -u1 * d - -u2 * -d = -(u1 + u2) * d := by ring
  rw [hv12, hvden, hd2, mul_one] at hair
  rw [hu12, huden, hd2, mul_one]
  rcases hd with h | h
  · rw [h, mul_one] at hair ⊢
    have hdenneg : -(v1 + v2) < 0 := by linarith
    have hnum : 0 < -(v1 * v2) * S := by
      rcases div_neg_iff.mp hair with ⟨hc, _⟩ | ⟨_, hc⟩
      · exact hc
      · linarith
    have hS : S < 0 := by nlinarith [mul_pos hv1 hv2]
    apply div_neg_iff.mpr
    exact Or.inl ⟨by nlinarith [mul_pos hu1 hu2], by linarith⟩
  · rw [h] at hair ⊢
    have hdenpos : 0 < -(v1 + v2) * (-1 : ℝ) := by nlinarith
    have hnum : -(v1 * v2) * S < 0 := by
      rcases div_neg_iff.mp hair with ⟨_, hc⟩ | ⟨hc, _⟩
      · linarith
      · exact hc
    have hS : 0 < S := by nlinarith [mul_pos hv1 hv2]
    apply div_neg_iff.mpr
    exact Or.inr ⟨by nlinarith [mul_pos hu1 hu2], by nlinarith⟩

theorem dir_pm (P : Prop) : (if P then (-1:ℝ) else 1) = 1 ∨ (if P then (-1:ℝ) else 1) = -1 := by
  by_cases h : P
  · right
    rw [if_pos h]
  · left
    rw [if_neg h]

theorem cot_order_iff {t1 t2 : ℝ} (h10 : 0 < t1) (h12 : t1 < π / 2)
    (h20 : 0 < t2) (h22 : t2 < π / 2) :
    Real.cos t1 / Real.sin t1 < Real.cos t2 / Real.sin t2 ↔ t2 < t1 := by
  constructor
  · intro h
    rcases lt_trichotomy t1 t2 with hlt | heq | hgt
    · exact absurd h (not_lt.mpr (cot_lt_cot h10 h22 hlt).le)
    · rw [heq] at h
      exact absurd h (lt_irrefl _)
    · exact hgt
  · intro h
    exact cot_lt_cot h20 h12 h

theorem refr_order_iff {n t1 t2 : ℝ} (hn : 0 < n) (h10 : 0 < t1) (h12 : t1 < π / 2)
    (h20 : 0 < t2) (h22 : t2 < π / 2)
    (hs1 : n * Real.sin t1 ≤ 1) (hs2 : n * Real.sin t2 ≤ 1) :
    Real.arcsin (n * Real.sin t1) < Real.arcsin (n * Real.sin t2) ↔ t1 < t2 := by
  constructor
  · intro h
    rcases lt_trichotomy t1 t2 with hlt | heq | hgt
    · exact hlt
    · rw [heq] at h
      exact absurd h (lt_irrefl _)
    · exact absurd h (not_lt.mpr (refr_arcsin_lt hn h20 h12 hs1 hgt).le)
  · exact refr_arcsin_lt hn h10 h22 hs2

theorem cot_ne_of_ne {t1 t2 : ℝ} (h10 : 0 < t1) (h12 : t1 < π / 2)
    (h20 : 0 < t2) (h22 : t2 < π / 2) (hne : t1 ≠ t2) :
    Real.cos t1 / Real.sin t1 ≠ Real.cos t2 / Real.sin t2 := by
  rcases lt_or_gt_of_ne hne with h | h
  · exact ne_of_gt (cot_lt_cot h10 h22 h)
  · exact ne_of_lt (cot_lt_cot h20 h12 h)

/-- Radian-input version of the refracted-angle facts. -/
theorem refr_rad_facts' {n t : ℝ} (hn : 0 < n) (h0 : 0 < t) (h2 : t < π / 2)
    (hs : n * Real.sin t < 1) :
    0 < Real.arcsin (n * Real.sin t) ∧ Real.arcsin (n * Real.sin t) < π / 2 ∧
      Real.sin (Real.arcsin (n * Real.sin t)) = n * Real.sin t ∧
      0 < Real.cos (Real.arcsin (n * Real.sin t)) ∧
      0 < Real.sin (Real.arcsin (n * Real.sin t)) := by
  have hsin : 0 < Real.sin t :=
    Real.sin_pos_of_pos_of_lt_pi h0 (by linarith [Real.pi_pos])
  have harg : 0 < n * Real.sin t := mul_pos hn hsin
  have h1 : 0 < Real.arcsin (n * Real.sin t) := Real.arcsin_pos.mpr harg
  have h2' : Real.arcsin (n * Real.sin t) < π / 2 := Real.arcsin_lt_pi_div_two.mpr hs
  have h3 : Real.sin (Real.arcsin (n * Real.sin t)) = n * Real.sin t :=
    Real.sin_arcsin (by linarith) (le_of_lt hs)
  have h4 : 0 < Real.cos (Real.arcsin (n * Real.sin t)) :=
    Real.cos_pos_of_mem_Ioo ⟨by linarith, h2'⟩
  exact ⟨h1, h2', h3, h4, by rw [h3]; exact harg⟩

theorem refr_ne_of_ne {n t1 t2 : ℝ} (hn : 0 < n) (h10 : 0 < t1) (h12 : t1 < π / 2)
    (h20 : 0 < t2) (h22 : t2 < π / 2)
    (hs1 : n * Real.sin t1 ≤ 1) (hs2 : n * Real.sin t2 ≤ 1) (hne : t1 ≠ t2) :
    Real.arcsin (n * Real.sin t1) ≠ Real.arcsin (n * Real.sin t2) := by
  rcases lt_or_gt_of_ne hne with h | h
  · exact ne_of_lt (refr_arcsin_lt hn h10 h22 hs2 h)
  · exact ne_of_gt (refr_arcsin_lt hn h20 h12 hs1 h)

theorem point_eta_level (p : Point) (c : ℝ) (h : p.y = c) : p = ⟨p.x, c⟩ := by
  apply Point.ext
  · rfl
  · exact h

theorem deg_inj {a b : ℝ} (h : a * π / 180 = b * π / 180) : a = b := by
  have hpi : (π : ℝ) ≠ 0 := Real.pi_ne_zero
  field_simp at h
  rcases h with h | h
  · exact h
  · exact absurd h hpi

theorem dir_of_sign {w q : ℝ} (hw : 0 < w) (hq : 0 < q) (P : Prop) :
    (if w * q * (if P then (-1:ℝ) else 1) < 0 then (-1:ℝ) else 1) =
      (if P then (-1:ℝ) else 1) := by
  by_cases h : P
  · rw [if_pos h]
    rw [if_pos (show w * q * (-1:ℝ) < 0 by nlinarith)]
  · rw [if_neg h]
    rw [if_neg (show ¬ (w * q * (1:ℝ) < 0) by push_neg; nlinarith)]

theorem ray_decomp_sincos {Qx Qy px c cs sn D : ℝ} (hsn : sn ≠ 0) (hcs : cs ≠ 0)
    (hD : D = 1 ∨ D = -1)
    (hmem : Qy - c = -(cs / sn) * D * (Qx - px)) :
    Qx - px = (c - Qy) * (sn / cs) * D := by
  have hD2 : D * D = 1 := by
    rcases hD with h | h <;> rw [h] <;> norm_num
  have hfrac : cs / sn * (sn / cs) = 1 := by
    field_simp
  symm
  calc (c - Qy) * (sn / cs) * D
      = -(Qy - c) * (sn / cs) * D := by ring
  _ = -(-(cs / sn) * D * (Qx - px)) * (sn / cs) * D := by rw [← hmem]
  _ = (Qx - px) * (D * D) * (cs / sn * (sn / cs)) := by ring
  _ = Qx - px := by
      rw [hD2, hfrac, mul_one, mul_one]

theorem intersectRays_y_offset' (p1 p2 : Point) (c m1 m2 : ℝ)
    (h1 : p1.y = c) (h2 : p2.y = c) (h : m1 - m2 ≠ 0) :
    (intersectRays p1 m1 p2 m2).y - c = m1 * m2 * (p1.x - p2.x) / (m1 - m2) := by
  unfold intersectRays
  dsimp only
  rw [h1, h2]
  field_simp
  ring

/-- Core of the reconciliation-cycle analysis: under the guards of
`updateApparentFromReal` (locked mode, both angles in `(0, 90)`, no TIR, the
real position well defined by non-parallel rays and strictly above the
interface, both refraction points on the interface), the newly derived
apparent position lies strictly above the interface and the
`updateAnglesFromPositions` angle recovery applied to it returns exactly the
current angles (before the `toFixed(1)` rounding). -/
theorem updateApparent_core (s : SimState) (r : Point)
    (hlock : s.lockRealPosition = true)
    (hLy : s.leftPoint.y = waterLevelY) (hRy : s.rightPoint.y = waterLevelY)
    (hL0 : 0 < s.leftAngleDeg) (hL90 : s.leftAngleDeg < 90)
    (hR0 : 0 < s.rightAngleDeg) (hR90 : s.rightAngleDeg < 90)
    (hn1 : 1 ≤ s.refractiveIndex)
    (hTL : s.refractiveIndex * Real.sin (s.leftAngleDeg * π / 180) < 1)
    (hTR : s.refractiveIndex * Real.sin (s.rightAngleDeg * π / 180) < 1)
    (hr : realPosition s = some r) (hry : r.y < waterLevelY)
    (hnd : (s.apparentPosition.x < s.leftPoint.x ↔ s.apparentPosition.x < s.rightPoint.x) →
      s.leftAngleDeg ≠ s.rightAngleDeg) :
    (updateApparentFromReal s).apparentPosition.y < waterLevelY ∧
    |jsAtan2 ((updateApparentFromReal s).apparentPosition.x - s.leftPoint.x)
        (-((updateApparentFromReal s).apparentPosition.y - s.leftPoint.y))| * 180 / π =
      s.leftAngleDeg ∧
    |jsAtan2 ((updateApparentFromReal s).apparentPosition.x - s.rightPoint.x)
        (-((updateApparentFromReal s).apparentPosition.y - s.rightPoint.y))| * 180 / π =
      s.rightAngleDeg := by
  have hn0 : (0:ℝ) < s.refractiveIndex := by linarith
  have htL0 : 0 < s.leftAngleDeg * π / 180 := deg_pos hL0
  have htL2 : s.leftAngleDeg * π / 180 < π / 2 := deg_lt_pi_div_two hL90
  have htR0 : 0 < s.rightAngleDeg * π / 180 := deg_pos hR0
  have htR2 : s.rightAngleDeg * π / 180 < π / 2 := deg_lt_pi_div_two hR90
  obtain ⟨hρL0, hρL2, hρLsin, hρLcos, hρLsinpos⟩ := refr_rad_facts' hn0 htL0 htL2 hTL
  obtain ⟨hρR0, hρR2, hρRsin, hρRcos, hρRsinpos⟩ := refr_rad_facts' hn0 htR0 htR2 hTR
  have hsintL : 0 < Real.sin (s.leftAngleDeg * π / 180) :=
    Real.sin_pos_of_pos_of_lt_pi htL0 (by linarith [Real.pi_pos])
  have hsintR : 0 < Real.sin (s.rightAngleDeg * π / 180) :=
    Real.sin_pos_of_pos_of_lt_pi htR0 (by linarith [Real.pi_pos])
  have hcostL : 0 < Real.cos (s.leftAngleDeg * π / 180) :=
    Real.cos_pos_of_mem_Ioo ⟨by linarith, htL2⟩
  have hcostR : 0 < Real.cos (s.rightAngleDeg * π / 180) :=
    Real.cos_pos_of_mem_Ioo ⟨by linarith, htR2⟩
  have hxL : ¬ leftExceedsCritical s := by
    unfold leftExceedsCritical
    push_neg
    exact lt_criticalAngle_of_snell hn1 (le_of_lt hL0) hL90 hTL
  have hxR : ¬ rightExceedsCritical s := by
    unfold rightExceedsCritical
    push_neg
    exact lt_criticalAngle_of_snell hn1 (le_of_lt hR0) hR90 hTR
  have hTIR : ¬ (leftExceedsCritical s ∨ rightExceedsCritical s) := by
    rintro (h | h)
    · exact hxL h
    · exact hxR h
  -- extract the intersection equation for the real position
  unfold realPosition at hr
  rw [if_neg hTIR] at hr
  simp only [raySlope_eq, refractedDeg_as_rad, degRadRoundtrip] at hr
  rw [neg_div_mul_dir (dir_pm (s.apparentPosition.x < s.leftPoint.x)),
      neg_div_mul_dir (dir_pm (s.apparentPosition.x < s.rightPoint.x))] at hr
  have hreq := Option.some.inj hr
  -- abbreviations
  set tL := s.leftAngleDeg * π / 180 with htLdef
  set tR := s.rightAngleDeg * π / 180 with htRdef
  set ρL := Real.arcsin (s.refractiveIndex * Real.sin tL) with hρLdef
  set ρR := Real.arcsin (s.refractiveIndex * Real.sin tR) with hρRdef
  set DL := (if s.apparentPosition.x < s.leftPoint.x then (-1:ℝ) else 1) with hDLdef
  set DR := (if s.apparentPosition.x < s.rightPoint.x then (-1:ℝ) else 1) with hDRdef
  set uL := Real.cos tL / Real.sin tL with huLdef
  set uR := Real.cos tR / Real.sin tR with huRdef
  set vL := Real.cos ρL / Real.sin ρL with hvLdef
  set vR := Real.cos ρR / Real.sin ρR with hvRdef
  have hDLpm : DL = 1 ∨ DL = -1 := dir_pm _
  have hDRpm : DR = 1 ∨ DR = -1 := dir_pm _
  have huL : 0 < uL := div_pos hcostL hsintL
  have huR : 0 < uR := div_pos hcostR hsintR
  have hvL : 0 < vL := div_pos hρLcos hρLsinpos
  have hvR : 0 < vR := div_pos hρRcos hρRsinpos
  -- from the side-classification nondegeneracy hypothesis
  have hsideAngles : DL = DR → s.leftAngleDeg ≠ s.rightAngleDeg := by
    intro hD
    apply hnd
    by_cases hPL : s.apparentPosition.x < s.leftPoint.x <;>
      by_cases hPR : s.apparentPosition.x < s.rightPoint.x
    · exact ⟨fun _ => hPR, fun _ => hPL⟩
    · rw [hDLdef, hDRdef, if_pos hPL, if_neg hPR] at hD
      norm_num at hD
    · rw [hDLdef, hDRdef, if_neg hPL, if_pos hPR] at hD
      norm_num at hD
    · exact ⟨fun h => absurd h hPL, fun h => absurd h hPR⟩
  have htne : DL = DR → tL ≠ tR := by
    intro hD hteq
    exact hsideAngles hD (deg_inj hteq)
  have hsideU : DL = DR → uL ≠ uR := fun hD =>
    cot_ne_of_ne htL0 htL2 htR0 htR2 (htne hD)
  have hsideV : DL = DR → vL ≠ vR := fun hD =>
    cot_ne_of_ne hρL0 hρL2 hρR0 hρR2
      (refr_ne_of_ne hn0 htL0 htL2 htR0 htR2 (le_of_lt hTL) (le_of_lt hTR) (htne hD))
  have hNDa : -vL * DL ≠ -vR * DR := slopes_ne hvL hvR hDLpm hDRpm hsideV
  have hNDw : -uL * DL ≠ -uR * DR := slopes_ne huL huR hDLpm hDRpm hsideU
  have hNDa' : -vL * DL - -vR * DR ≠ 0 := sub_ne_zero.mpr hNDa
  have hNDw' : -uL * DL - -uR * DR ≠ 0 := sub_ne_zero.mpr hNDw
  -- the quotient form of the real position's height, and its sign
  have hoffr : r.y - waterLevelY =
      -vL * DL * (-vR * DR) * (s.leftPoint.x - s.rightPoint.x) / (-vL * DL - -vR * DR) := by
    rw [← hreq]
    exact intersectRays_y_offset' _ _ _ _ _ hLy hRy hNDa'
  have hair : -vL * DL * (-vR * DR) * (s.leftPoint.x - s.rightPoint.x) /
      (-vL * DL - -vR * DR) < 0 := by
    rw [← hoffr]
    linarith
  -- order compatibility between the water-side and air-side cotangents
  have hcmp : vL < vR ↔ uL < uR := by
    rw [hvLdef, hvRdef, cot_order_iff hρL0 hρL2 hρR0 hρR2,
        huLdef, huRdef, cot_order_iff htL0 htL2 htR0 htR2]
    exact refr_order_iff hn0 htR0 htR2 htL0 htL2 (le_of_lt hTR) (le_of_lt hTL)
  have hcmp' : vR < vL ↔ uR < uL := by
    rw [hvLdef, hvRdef, cot_order_iff hρR0 hρR2 hρL0 hρL2,
        huLdef, huRdef, cot_order_iff htR0 htR2 htL0 htL2]
    exact refr_order_iff hn0 htL0 htL2 htR0 htR2 (le_of_lt hTL) (le_of_lt hTR)
  -- the sign of the derived apparent position's height
  have hDcase : DR = DL ∨ DR = -DL := by
    rcases hDLpm with h | h <;> rcases hDRpm with h' | h'
    · left
      rw [h, h']
    · right
      rw [h, h']
    · right
      rw [h, h']
      norm_num
    · left
      rw [h, h']
  have hwater : -uL * DL * (-uR * DR) * (s.leftPoint.x - s.rightPoint.x) /
      (-uL * DL - -uR * DR) < 0 := by
    rcases hDcase with hD | hD
    · rw [hD] at hair ⊢
      exact transfer_sameD huL huR hvL hvR hDLpm hcmp hcmp' hair
    · rw [hD] at hair ⊢
      exact transfer_diffD huL huR hvL hvR hDLpm hair
  -- decompose the real position along the left and right air rays
  have hmemaL : r.y - s.leftPoint.y = -vL * DL * (r.x - s.leftPoint.x) := by
    rw [← hreq]
    exact intersectRays_mem_left _ _ _ _
  have hmemaR : r.y - s.rightPoint.y = -vR * DR * (r.x - s.rightPoint.x) := by
    rw [← hreq]
    exact intersectRays_mem_right _ _ _ _ hNDa'
  have hw : 0 < waterLevelY - r.y := by linarith
  have hdxaL : r.x - s.leftPoint.x =
      (waterLevelY - r.y) * (Real.sin ρL / Real.cos ρL) * DL := by
    apply ray_decomp_sincos (ne_of_gt hρLsinpos) (ne_of_gt hρLcos) hDLpm
    rw [hLy] at hmemaL
    exact hmemaL
  have hdxaR : r.x - s.rightPoint.x =
      (waterLevelY - r.y) * (Real.sin ρR / Real.cos ρR) * DR := by
    apply ray_decomp_sincos (ne_of_gt hρRsinpos) (ne_of_gt hρRcos) hDRpm
    rw [hRy] at hmemaR
    exact hmemaR
  -- evaluate the body of updateApparentFromReal
  have hguard : ¬ (r.y ≥ waterLevelY ∨ leftExceedsCritical s ∨ rightExceedsCritical s) := by
    rintro (h | h | h)
    · linarith
    · exact hxL h
    · exact hxR h
  have happ : updateApparentFromReal s = { s with apparentPosition := apparentFromRealPoint s r } := by
    unfold updateApparentFromReal
    rw [if_pos hlock]
    have hrr : realPosition s = some r := by
      unfold realPosition
      rw [if_neg hTIR]
      simp only [raySlope_eq, refractedDeg_as_rad, degRadRoundtrip]
      rw [neg_div_mul_dir (dir_pm (s.apparentPosition.x < s.leftPoint.x)),
          neg_div_mul_dir (dir_pm (s.apparentPosition.x < s.rightPoint.x))]
      rw [hreq]
    rw [hrr]
    exact if_neg hguard
  have hwaterL : Real.arcsin (airIndex / s.refractiveIndex * Real.sin ρL) = tL := by
    rw [hρLsin]
    have hcollapse : airIndex / s.refractiveIndex *
        (s.refractiveIndex * Real.sin tL) = Real.sin tL := by
      unfold airIndex
      field_simp
    rw [hcollapse, Real.arcsin_sin (by linarith) (by linarith)]
  have hwaterR : Real.arcsin (airIndex / s.refractiveIndex * Real.sin ρR) = tR := by
    rw [hρRsin]
    have hcollapse : airIndex / s.refractiveIndex *
        (s.refractiveIndex * Real.sin tR) = Real.sin tR := by
      unfold airIndex
      field_simp
    rw [hcollapse, Real.arcsin_sin (by linarith) (by linarith)]
  have hdyaL : r.y - s.leftPoint.y = -(waterLevelY - r.y) := by
    rw [hLy]
    ring
  have hdyaR : r.y - s.rightPoint.y = -(waterLevelY - r.y) := by
    rw [hRy]
    ring
  have happt : apparentFromRealPoint s r =
      intersectRays s.leftPoint (-uL * DL) s.rightPoint (-uR * DR) := by
    unfold apparentFromRealPoint
    dsimp only
    rw [hdxaL, hdxaR, hdyaL, hdyaR]
    rw [recover_incident_dir hρL0 hρL2 hw hDLpm, recover_incident_dir hρR0 hρR2 hw hDRpm]
    rw [hwaterL, hwaterR]
    simp only [raySlope_eq, degRadRoundtrip]
    rw [dir_of_sign hw (div_pos hρLsinpos hρLcos) _,
        dir_of_sign hw (div_pos hρRsinpos hρRcos) _]
    rw [neg_div_mul_dir (dir_pm (s.apparentPosition.x < s.leftPoint.x)),
        neg_div_mul_dir (dir_pm (s.apparentPosition.x < s.rightPoint.x))]
  have happ2 : (updateApparentFromReal s).apparentPosition =
      intersectRays s.leftPoint (-uL * DL) s.rightPoint (-uR * DR) := by
    rw [happ, ← happt]
  -- height of the derived apparent position
  have hoffa : (intersectRays s.leftPoint (-uL * DL) s.rightPoint (-uR * DR)).y -
      waterLevelY =
      -uL * DL * (-uR * DR) * (s.leftPoint.x - s.rightPoint.x) / (-uL * DL - -uR * DR) :=
    intersectRays_y_offset' _ _ _ _ _ hLy hRy hNDw'
  have hAy : (intersectRays s.leftPoint (-uL * DL) s.rightPoint (-uR * DR)).y <
      waterLevelY := by
    have := hwater
    rw [← hoffa] at this
    linarith
  have hwA : 0 < waterLevelY -
      (intersectRays s.leftPoint (-uL * DL) s.rightPoint (-uR * DR)).y := by
    linarith
  -- decompose the derived apparent position along the two water rays
  have hmemwL := intersectRays_mem_left s.leftPoint s.rightPoint (-uL * DL) (-uR * DR)
  have hmemwR := intersectRays_mem_right s.leftPoint s.rightPoint (-uL * DL) (-uR * DR) hNDw'
  rw [hLy] at hmemwL
  rw [hRy] at hmemwR
  have hdxwL : (intersectRays s.leftPoint (-uL * DL) s.rightPoint (-uR * DR)).x -
      s.leftPoint.x =
      (waterLevelY - (intersectRays s.leftPoint (-uL * DL) s.rightPoint (-uR * DR)).y) *
        (Real.sin tL / Real.cos tL) * DL :=
    ray_decomp_sincos (ne_of_gt hsintL) (ne_of_gt hcostL) hDLpm hmemwL
  have hdxwR : (intersectRays s.leftPoint (-uL * DL) s.rightPoint (-uR * DR)).x -
      s.rightPoint.x =
      (waterLevelY - (intersectRays s.leftPoint (-uL * DL) s.rightPoint (-uR * DR)).y) *
        (Real.sin tR / Real.cos tR) * DR :=
    ray_decomp_sincos (ne_of_gt hsintR) (ne_of_gt hcostR) hDRpm hmemwR
  refine ⟨?_, ?_, ?_⟩
  · rw [happ2]
    exact hAy
  · rw [happ2, hdxwL]
    have hdy : -((intersectRays s.leftPoint (-uL * DL) s.rightPoint (-uR * DR)).y -
        s.leftPoint.y) =
        waterLevelY - (intersectRays s.leftPoint (-uL * DL) s.rightPoint (-uR * DR)).y := by
      rw [hLy]
      ring
    rw [hdy, recover_angle_dir htL0 htL2 hwA hDLpm, htLdef, radDegRoundtrip]
  · rw [happ2, hdxwR]
    have hdy : -((intersectRays s.leftPoint (-uL * DL) s.rightPoint (-uR * DR)).y -
        s.rightPoint.y) =
        waterLevelY - (intersectRays s.leftPoint (-uL * DL) s.rightPoint (-uR * DR)).y := by
      rw [hRy]
      ring
    rw [hdy, recover_angle_dir htR0 htR2 hwA hDRpm, htRdef, radDegRoundtrip]

/-- The full reconciliation cycle: the angle watcher derives an apparent
position; dragging the apparent point to exactly that position recomputes
each angle as its own value rounded through `toFixed(1)`. -/
theorem cycle_general (s : SimState) (r : Point)
    (hflag : s.updatingFromDrag = false)
    (hlock : s.lockRealPosition = true)
    (hLy : s.leftPoint.y = waterLevelY) (hRy : s.rightPoint.y = waterLevelY)
    (hL0 : 0 < s.leftAngleDeg) (hL89 : s.leftAngleDeg ≤ 89.9)
    (hR0 : 0 < s.rightAngleDeg) (hR89 : s.rightAngleDeg ≤ 89.9)
    (hn1 : 1 ≤ s.refractiveIndex)
    (hTL : s.refractiveIndex * Real.sin (s.leftAngleDeg * π / 180) < 1)
    (hTR : s.refractiveIndex * Real.sin (s.rightAngleDeg * π / 180) < 1)
    (hr : realPosition s = some r) (hry : r.y < waterLevelY)
    (hnd : (s.apparentPosition.x < s.leftPoint.x ↔ s.apparentPosition.x < s.rightPoint.x) →
      s.leftAngleDeg ≠ s.rightAngleDeg) :
    (angleWatcherBody s).leftAngleDeg = s.leftAngleDeg ∧
    (angleWatcherBody s).rightAngleDeg = s.rightAngleDeg ∧
    (handleMouseMove (angleWatcherBody s) DragTarget.apparentPosition
        ((angleWatcherBody s).apparentPosition.x + (angleWatcherBody s).viewportOffset.x)
        ((angleWatcherBody s).apparentPosition.y + (angleWatcherBody s).viewportOffset.y)).leftAngleDeg
      = jsToFixed1 s.leftAngleDeg ∧
    (handleMouseMove (angleWatcherBody s) DragTarget.apparentPosition
        ((angleWatcherBody s).apparentPosition.x + (angleWatcherBody s).viewportOffset.x)
        ((angleWatcherBody s).apparentPosition.y + (angleWatcherBody s).viewportOffset.y)).rightAngleDeg
      = jsToFixed1 s.rightAngleDeg := by
  have hL90 : s.leftAngleDeg < 90 := by linarith
  have hR90 : s.rightAngleDeg < 90 := by linarith
  have hbody : angleWatcherBody s =
      updateApparentFromReal { s with angleWatcherRuns := s.angleWatcherRuns + 1 } := by
    unfold angleWatcherBody
    rw [if_neg (by rw [hflag]; exact Bool.false_ne_true)]
    rw [clampAngle_eq_self (le_of_lt hL0) hL89, clampAngle_eq_self (le_of_lt hR0) hR89]
  obtain ⟨p, hp⟩ := updateApparentFromReal_shape
    { s with angleWatcherRuns := s.angleWatcherRuns + 1 }
  obtain ⟨hcy, hcL, hcR⟩ := updateApparent_core
    { s with angleWatcherRuns := s.angleWatcherRuns + 1 } r hlock hLy hRy hL0 hL90 hR0 hR90
    hn1 hTL hTR hr hry hnd
  rw [hp] at hcy hcL hcR
  dsimp only at hcy hcL hcR
  refine ⟨?_, ?_, ?_, ?_⟩
  · rw [hbody, hp]
  · rw [hbody, hp]
  · rw [hbody, hp]
    dsimp only
    simp only [handleMouseMove]
    rw [add_sub_cancel_right, add_sub_cancel_right]
    rw [if_pos hcy]
    unfold updateAnglesFromPositions
    rw [writeBoth_of_flag _ _ _ rfl]
    dsimp only
    rw [hcL]
  · rw [hbody, hp]
    dsimp only
    simp only [handleMouseMove]
    rw [add_sub_cancel_right, add_sub_cancel_right]
    rw [if_pos hcy]
    unfold updateAnglesFromPositions
    rw [writeBoth_of_flag _ _ _ rfl]
    dsimp only
    rw [hcR]

/-- Claim C5 as amended: the reconciliation cycle angle to apparent to angle
is a fixed point of the angles provided each angle is an exact multiple of
the 0.1-degree resolution of the `toFixed(1)` rounding in
`updateAnglesFromPositions` (together with the cycle's own premises: locked
mode, angles in range, no TIR, a well-defined real position above the
interface, non-parallel rays). -/
theorem claim_C5_amended_reconciliation_fixed_point (s : SimState) (r : Point)
    (hflag : s.updatingFromDrag = false)
    (hlock : s.lockRealPosition = true)
    (hLy : s.leftPoint.y = waterLevelY) (hRy : s.rightPoint.y = waterLevelY)
    (hL0 : 0 < s.leftAngleDeg) (hL89 : s.leftAngleDeg ≤ 89.9)
    (hR0 : 0 < s.rightAngleDeg) (hR89 : s.rightAngleDeg ≤ 89.9)
    (hn1 : 1 ≤ s.refractiveIndex)
    (hTL : s.refractiveIndex * Real.sin (s.leftAngleDeg * π / 180) < 1)
    (hTR : s.refractiveIndex * Real.sin (s.rightAngleDeg * π / 180) < 1)
    (hr : realPosition s = some r) (hry : r.y < waterLevelY)
    (hnd : (s.apparentPosition.x < s.leftPoint.x ↔ s.apparentPosition.x < s.rightPoint.x) →
      s.leftAngleDeg ≠ s.rightAngleDeg)
    (hLk : ∃ k : ℤ, s.leftAngleDeg = (k : ℝ) / 10)
    (hRk : ∃ k : ℤ, s.rightAngleDeg = (k : ℝ) / 10) :
    (handleMouseMove (angleWatcherBody s) DragTarget.apparentPosition
        ((angleWatcherBody s).apparentPosition.x + (angleWatcherBody s).viewportOffset.x)
        ((angleWatcherBody s).apparentPosition.y + (angleWatcherBody s).viewportOffset.y)).leftAngleDeg
      = (angleWatcherBody s).leftAngleDeg ∧
    (handleMouseMove (angleWatcherBody s) DragTarget.apparentPosition
        ((angleWatcherBody s).apparentPosition.x + (angleWatcherBody s).viewportOffset.x)
        ((angleWatcherBody s).apparentPosition.y + (angleWatcherBody s).viewportOffset.y)).rightAngleDeg
      = (angleWatcherBody s).rightAngleDeg := by
  obtain ⟨h1, h2, h3, h4⟩ := cycle_general s r hflag hlock hLy hRy hL0 hL89 hR0 hR89
    hn1 hTL hTR hr hry hnd
  obtain ⟨kL, hkL⟩ := hLk
  obtain ⟨kR, hkR⟩ := hRk
  constructor
  · rw [h3, h1, hkL, jsToFixed1_tenths]
  · rw [h4, h2, hkR, jsToFixed1_tenths]

theorem sin_3004_bound : (1.5 : ℝ) * Real.sin ((30.04 : ℝ) * π / 180) < 1 := by
  have hx0 : 0 < (30.04 : ℝ) * π / 180 := deg_pos (by norm_num)
  have hxlt : (30.04 : ℝ) * π / 180 < 0.53 := by nlinarith [Real.pi_lt_d6]
  have hsin := Real.sin_lt hx0
  nlinarith

theorem jsToFixed1_3004 : jsToFixed1 (30.04 : ℝ) = 30 := by
  unfold jsToFixed1
  have h1 : (10 : ℝ) * 30.04 = 300.4 := by norm_num
  rw [h1, round_eq]
  have h2 : ⌊(300.4 : ℝ) + 1 / 2⌋ = 300 := by
    apply Int.floor_eq_iff.mpr
    constructor
    · norm_num
    · norm_num
  rw [h2]
  norm_num

/-- Counterexample for claim C5 as stated: starting from a state whose angles
were typed in as 30.04 degrees (accepted by the angle input, within range, no
TIR, real position well defined), the edit-Angle handler derives an apparent
position, and invoking the apparent-drag handler at exactly that derived
position changes the angles: `updateAnglesFromPositions` rounds them through
`toFixed(1)`, so 30.04 becomes 30. -/
theorem claim_C5_counterexample :
    (angleWatcherBody offTenthState).leftAngleDeg = 30.04 ∧
    (handleMouseMove (angleWatcherBody offTenthState) DragTarget.apparentPosition
        ((angleWatcherBody offTenthState).apparentPosition.x +
          (angleWatcherBody offTenthState).viewportOffset.x)
        ((angleWatcherBody offTenthState).apparentPosition.y +
          (angleWatcherBody offTenthState).viewportOffset.y)).leftAngleDeg = 30 ∧
    (30.04 : ℝ) ≠ 30 := by
  have hA := sin_3004_bound
  obtain ⟨_, _, _, hcos, hsin⟩ := refr_rad_facts' (show (0:ℝ) < 1.5 by norm_num)
    (deg_pos (show (0:ℝ) < 30.04 by norm_num))
    (deg_lt_pi_div_two (show (30.04:ℝ) < 90 by norm_num)) hA
  have hrp : realPosition offTenthState =
      some ⟨400, waterLevelY - 150 *
        (Real.cos (Real.arcsin (1.5 * Real.sin ((30.04:ℝ) * π / 180))) /
          Real.sin (Real.arcsin (1.5 * Real.sin ((30.04:ℝ) * π / 180))))⟩ :=
    realPosition_symmetric offTenthState 400 150 30.04 1.5 rfl
      (by apply Point.ext <;> norm_num [offTenthState, initialState])
      (by apply Point.ext <;> norm_num [offTenthState, initialState])
      rfl rfl rfl (by norm_num) (by norm_num) (by norm_num) (by norm_num) hA
  have hry : (⟨400, waterLevelY - 150 *
      (Real.cos (Real.arcsin (1.5 * Real.sin ((30.04:ℝ) * π / 180))) /
        Real.sin (Real.arcsin (1.5 * Real.sin ((30.04:ℝ) * π / 180))))⟩ : Point).y <
      waterLevelY := by
    dsimp only
    have hk := div_pos hcos hsin
    nlinarith
  have hnd' : (offTenthState.apparentPosition.x < offTenthState.leftPoint.x ↔
      offTenthState.apparentPosition.x < offTenthState.rightPoint.x) →
      offTenthState.leftAngleDeg ≠ offTenthState.rightAngleDeg := by
    intro h
    exfalso
    have h550 : offTenthState.apparentPosition.x < offTenthState.rightPoint.x := by
      show (400:ℝ) < 550
      norm_num
    have h250 : (400:ℝ) < 250 := h.mpr h550
    norm_num at h250
  obtain ⟨h1, h2, h3, h4⟩ := cycle_general offTenthState _ rfl rfl rfl rfl
    (show (0:ℝ) < 30.04 by norm_num) (show (30.04:ℝ) ≤ 89.9 by norm_num)
    (show (0:ℝ) < 30.04 by norm_num) (show (30.04:ℝ) ≤ 89.9 by norm_num)
    (show (1:ℝ) ≤ 1.5 by norm_num) hA hA hrp hry hnd'
  refine ⟨h1, ?_, by norm_num⟩
  rw [h3]
  show jsToFixed1 (30.04 : ℝ) = 30
  exact jsToFixed1_3004

/-- Closed witness for the amended claim C5: at the initial state with the
index set to 1.5 (angles 30 degrees, an exact multiple of 0.1), the full
reconciliation cycle leaves both angles unchanged. -/
theorem claim_C5_witness :
    (handleMouseMove (angleWatcherBody { initialState with refractiveIndex := 1.5 })
        DragTarget.apparentPosition
        ((angleWatcherBody { initialState with refractiveIndex := 1.5 }).apparentPosition.x +
          (angleWatcherBody { initialState with refractiveIndex := 1.5 }).viewportOffset.x)
        ((angleWatcherBody { initialState with refractiveIndex := 1.5 }).apparentPosition.y +
          (angleWatcherBody { initialState with refractiveIndex := 1.5 }).viewportOffset.y)).leftAngleDeg
      = (angleWatcherBody { initialState with refractiveIndex := 1.5 }).leftAngleDeg ∧
    (handleMouseMove (angleWatcherBody { initialState with refractiveIndex := 1.5 })
        DragTarget.apparentPosition
        ((angleWatcherBody { initialState with refractiveIndex := 1.5 }).apparentPosition.x +
          (angleWatcherBody { initialState with refractiveIndex := 1.5 }).viewportOffset.x)
        ((angleWatcherBody { initialState with refractiveIndex := 1.5 }).apparentPosition.y +
          (angleWatcherBody { initialState with refractiveIndex := 1.5 }).viewportOffset.y)).rightAngleDeg
      = (angleWatcherBody { initialState with refractiveIndex := 1.5 }).rightAngleDeg := by
  have hA : (1.5 : ℝ) * Real.sin ((30 : ℝ) * π / 180) < 1 := by
    rw [sin_thirty_deg]
    norm_num
  obtain ⟨_, _, _, hcos, hsin⟩ := refr_rad_facts' (show (0:ℝ) < 1.5 by norm_num)
    (deg_pos (show (0:ℝ) < 30 by norm_num))
    (deg_lt_pi_div_two (show (30:ℝ) < 90 by norm_num)) hA
  have hrp : realPosition { initialState with refractiveIndex := 1.5 } =
      some ⟨400, waterLevelY - 150 *
        (Real.cos (Real.arcsin (1.5 * Real.sin ((30:ℝ) * π / 180))) /
          Real.sin (Real.arcsin (1.5 * Real.sin ((30:ℝ) * π / 180))))⟩ :=
    realPosition_symmetric { initialState with refractiveIndex := 1.5 } 400 150 30 1.5 rfl
      (by apply Point.ext <;> norm_num [initialState])
      (by apply Point.ext <;> norm_num [initialState])
      rfl rfl rfl (by norm_num) (by norm_num) (by norm_num) (by norm_num) hA
  have hry : (⟨400, waterLevelY - 150 *
      (Real.cos (Real.arcsin (1.5 * Real.sin ((30:ℝ) * π / 180))) /
        Real.sin (Real.arcsin (1.5 * Real.sin ((30:ℝ) * π / 180))))⟩ : Point).y <
      waterLevelY := by
    dsimp only
    have hk := div_pos hcos hsin
    nlinarith
  have hnd' : ({ initialState with refractiveIndex := 1.5 }.apparentPosition.x <
      { initialState with refractiveIndex := 1.5 }.leftPoint.x ↔
      { initialState with refractiveIndex := 1.5 }.apparentPosition.x <
      { initialState with refractiveIndex := 1.5 }.rightPoint.x) →
      { initialState with refractiveIndex := 1.5 }.leftAngleDeg ≠
      { initialState with refractiveIndex := 1.5 }.rightAngleDeg := by
    intro h
    exfalso
    have h550 : { initialState with refractiveIndex := 1.5 }.apparentPosition.x <
        { initialState with refractiveIndex := 1.5 }.rightPoint.x := by
      show (400:ℝ) < 550
      norm_num
    have h250 : (400:ℝ) < 250 := h.mpr h550
    norm_num at h250
  exact claim_C5_amended_reconciliation_fixed_point
    { initialState with refractiveIndex := 1.5 } _ rfl rfl rfl rfl
    (show (0:ℝ) < 30 by norm_num) (show (30:ℝ) ≤ 89.9 by norm_num)
    (show (0:ℝ) < 30 by norm_num) (show (30:ℝ) ≤ 89.9 by norm_num)
    (show (1:ℝ) ≤ 1.5 by norm_num) hA hA hrp hry hnd'
    ⟨300, by norm_num [initialState]⟩ ⟨300, by norm_num [initialState]⟩
